import Mathlib

/-!
Shallow embedding of `ppocr/utils/save_load.py` (checkpoint manager of the
PaddleOCR-Vietnamese repository) and verification of its specification.

Python dictionaries are modelled as association lists `List (String × _)`
(Python dicts cannot contain duplicate keys, so `Nodup` hypotheses appear
where a theorem relies on that invariant).  The filesystem is an association
list from path to file content; `paddle.load` / `pickle.load` succeed only
when the file at the path holds content of the expected kind.  Exceptions
(`assert`, `raise ValueError`) are modelled with `Except`, the error value
carrying the model / optimizer state as it was at the moment of the raise.
-/

set_option autoImplicit false

namespace SaveLoad

/-- Tensor element types relevant to the module (`paddle.float16` drives the
`is_float16` logic; everything else behaves uniformly). -/
inductive DType
  | float16
  | float32
  | int64
  deriving DecidableEq, Repr

/-- A tensor: shape, element type and an abstract payload.  `astype` changes
only the element type (half-to-full promotion preserves the payload). -/
structure Tensor where
  shape : List Nat
  dtype : DType
  data : List Int
  deriving DecidableEq, Repr

instance : Inhabited Tensor := ⟨⟨[], DType.float32, []⟩⟩

/-- `tensor.astype(d)` of the framework: cast to element type `d`. -/
def Tensor.astype (t : Tensor) (d : DType) : Tensor :=
  { t with dtype := d }

/-- A parameter state dict: ordered mapping from parameter name to tensor. -/
abbrev PDict := List (String × Tensor)

/-- Python `d[k]` / `k in d` on a dict: first entry with the given key. -/
def pfind : PDict → String → Option Tensor
  | [], _ => none
  | kv :: rest, key => if kv.1 == key then some kv.2 else pfind rest key

/-- The dict invariant: keys are pairwise distinct (always true of a Python
dict). -/
def keysNodup (d : PDict) : Prop := (d.map Prod.fst).Nodup

instance (d : PDict) : Decidable (keysNodup d) := by
  unfold keysNodup; infer_instance

/-- Values stored in the training-metadata record (`best_model_dict`). -/
inductive MVal
  | int (n : Int)
  | bool (b : Bool)
  | str (s : String)
  deriving DecidableEq, Repr

/-- A metadata record: ordered mapping from string key to value. -/
abbrev MDict := List (String × MVal)

/-- Python dict lookup on a metadata record. -/
def mfind : MDict → String → Option MVal
  | [], _ => none
  | kv :: rest, key => if kv.1 == key then some kv.2 else mfind rest key

/-- Python `d[k] = v` on a dict: overwrite in place if the key exists,
otherwise append at the end. -/
def dictSet (d : MDict) (k : String) (v : MVal) : MDict :=
  if d.any (fun p => p.1 == k) then
    d.map (fun p => if p.1 == k then (k, v) else p)
  else
    d ++ [(k, v)]

/-- Content of a pickled `.states` file: the module reads the keys
`best_model_dict` (defaulting to the empty dict) and the optional integer
`epoch`. -/
structure StatesDict where
  best_model_dict : MDict
  epoch : Option Int
  deriving DecidableEq, Repr

/-- Optimizer state: an opaque mapping, persisted and restored verbatim. -/
abbrev OptState := List (String × Tensor)

/-- Content of a file on disk. -/
inductive FileContent
  | pdparams (d : PDict)
  | pdopt (o : OptState)
  | states (s : StatesDict)
  | dir
  deriving DecidableEq, Repr

/-- The filesystem: mapping from path to content; the head of the list is
the most recent write. -/
abbrev FS := List (String × FileContent)

/-- Content at a path (`None` when the path does not exist). -/
def FS.find : FS → String → Option FileContent
  | [], _ => none
  | pc :: rest, path => if pc.1 == path then some pc.2 else FS.find rest path

/-- `os.path.exists`. -/
def FS.pathExists (fs : FS) (path : String) : Bool :=
  (FS.find fs path).isSome

/-- `os.path.isdir`. -/
def FS.isDir (fs : FS) (path : String) : Bool :=
  FS.find fs path == some FileContent.dir

/-- Writing a file (overwrites any previous content at the path). -/
def FS.write (fs : FS) (path : String) (c : FileContent) : FS :=
  (path, c) :: fs

/-- `paddle.load` of a `.pdparams` file. -/
def paddleLoadParams (fs : FS) (path : String) : Except String PDict :=
  match FS.find fs path with
  | some (FileContent.pdparams d) => Except.ok d
  | _ => Except.error ("paddle.load failed on " ++ path)

/-- `paddle.load` of a `.pdopt` file. -/
def paddleLoadOpt (fs : FS) (path : String) : Except String OptState :=
  match FS.find fs path with
  | some (FileContent.pdopt o) => Except.ok o
  | _ => Except.error ("paddle.load failed on " ++ path)

/-- `pickle.load` of a `.states` file. -/
def pickleLoadStates (fs : FS) (path : String) : Except String StatesDict :=
  match FS.find fs path with
  | some (FileContent.states s) => Except.ok s
  | _ => Except.error ("pickle.load failed on " ++ path)

/-- `os.path.join` for the relative second components used by the module:
`a + "/" + b`, except that an empty `a` or an `a` already ending in the
separator contributes no extra separator. -/
def pathJoin (a b : String) : String :=
  if a == "" then b
  else if a.data.getLast? = some '/' then a ++ b
  else a ++ "/" ++ b

/-- The prefix `pathJoin a b` puts in front of `b`. -/
def joinPre (a : String) : String :=
  if a == "" then ""
  else if a.data.getLast? = some '/' then a
  else a ++ "/"

/-- Python truthiness of an optional string (`None` and `""` are falsy). -/
def truthyStr : Option String → Bool
  | none => false
  | some s => !(s == "")

/-- `Global.pretrained_model` may hold a single path or a list of paths. -/
inductive PMField
  | str (s : String)
  | list (l : List String)
  deriving DecidableEq, Repr

/-- Python truthiness of the `pretrained_model` field. -/
def truthyPM : Option PMField → Bool
  | none => false
  | some (PMField.str s) => !(s == "")
  | some (PMField.list l) => !l.isEmpty

/-- The slice of the configuration mapping read by this module:
`Global.checkpoints`, `Global.pretrained_model`, `Global.distributed`,
`Architecture.model_type`, `Architecture.algorithm`,
`Architecture.Backbone.checkpoints`. -/
structure Config where
  checkpoints : Option String
  pretrained_model : Option PMField
  model_type : String
  algorithm : String
  backbone_checkpoints : Option String
  distributed : Bool
  deriving Repr

/-- Result of a load operation: the returned `best_model_dict` record and
the model / optimizer state after the call, plus the log messages. -/
structure LoadOk where
  best_model_dict : MDict
  model : PDict
  optim : Option OptState
  logs : List String
  deriving DecidableEq, Repr

/-- A raised exception, carrying the model / optimizer state as it was at
the moment of the raise. -/
structure LoadErr where
  msg : String
  model : PDict
  optim : Option OptState
  logs : List String
  deriving DecidableEq, Repr

/-- `model.set_state_dict(sd)`: each parameter whose name occurs in `sd`
receives the value from `sd`; all other parameters keep their value. -/
def set_state_dict (model sd : PDict) : PDict :=
  model.map (fun kv =>
    match pfind sd kv.1 with
    | some w => (kv.1, w)
    | none => kv)

/-- `s.endswith(suffix)` (computed on the character data so that it
reduces inside proofs). -/
def strEndsWith (s suffix : String) : Bool :=
  suffix.data.isSuffixOf s.data

/-- Removing a matched pattern prefix from a list. -/
def dropPat : List Char → List Char → List Char
  | l, [] => l
  | [], _ => []
  | _ :: l, _ :: ps => dropPat l ps

/-- Python `str.replace`: replace every non-overlapping occurrence of `pat`
(left to right).  The fuel argument only drives structural recursion; it is
instantiated with more than the length of the text. -/
def replaceFuel (pat sub : List Char) : Nat → List Char → List Char
  | 0, l => l
  | fuel + 1, l =>
    match l with
    | [] => []
    | c :: rest =>
      if pat.isPrefixOf l then sub ++ replaceFuel pat sub fuel (dropPat l pat)
      else c :: replaceFuel pat sub fuel rest

/-- Python `s.replace(pat, sub)` for a non-empty pattern. -/
def strReplace (s pat sub : String) : String :=
  String.mk (replaceFuel pat.data sub.data (s.data.length + 1) s.data)

/-- `checkpoints.replace('.pdparams', '')` guarded by
`checkpoints.endswith('.pdparams')`, as in `load_model` and
`load_pretrained_params`. -/
def strip_pdparams_suffix (s : String) : String :=
  if strEndsWith s ".pdparams" then strReplace s ".pdparams" "" else s

/-- The per-parameter reconciliation loop of `load_model` (lines 101-116):
iterates over the target model's state dict, skipping names absent from the
loaded `params`, casting on dtype mismatch (recording float16 promotion) and
skipping shape mismatches.  Returns `(new_state_dict, is_float16, logs)`. -/
def lm_reconcile (params : PDict) : PDict → PDict × Bool × List String
  | [] => ([], false, [])
  | (key, value) :: rest =>
    let (nsd, f16, logs) := lm_reconcile params rest
    match pfind params key with
    | none =>
      (nsd, f16, ("warning: " ++ key ++ " not in loaded params !") :: logs)
    | some pre_value0 =>
      let f := pre_value0.dtype == DType.float16
      let pre_value :=
        if pre_value0.dtype != value.dtype
        then Tensor.astype pre_value0 value.dtype else pre_value0
      if value.shape == pre_value.shape then
        ((key, pre_value) :: nsd, (f || f16), logs)
      else
        (nsd, (f || f16),
         ("warning: the shape of model params " ++ key ++
          " not matched with loaded params shape !") :: logs)

/-- The per-parameter loop of `load_pretrained_params` (lines 233-247):
iterates over the loaded `params`, skipping names absent from the model,
casting on dtype mismatch (recording float16 promotion) and skipping shape
mismatches. -/
def lpp_loop (state_dict : PDict) : PDict → PDict × Bool × List String
  | [] => ([], false, [])
  | (k1, pv0) :: rest =>
    let (nsd, f16, logs) := lpp_loop state_dict rest
    match pfind state_dict k1 with
    | none =>
      (nsd, f16, ("warning: the pretrained params " ++ k1 ++ " not in model") :: logs)
    | some v =>
      let f := pv0.dtype == DType.float16
      let pv := if pv0.dtype != v.dtype then Tensor.astype pv0 v.dtype else pv0
      if v.shape == pv.shape then
        ((k1, pv) :: nsd, (f || f16), logs)
      else
        (nsd, (f || f16),
         ("warning: the shape of model params " ++ k1 ++
          " not matched with loaded params shape !") :: logs)

/-- Error raised by `load_pretrained_params` / the `init_model` pretrained
loop, carrying the model state at the raise. -/
structure PTErr where
  msg : String
  model : PDict
  logs : List String
  deriving DecidableEq, Repr

/-- Result of `load_pretrained_params`: the `is_float16` flag it returns,
the resulting model state and the logs. -/
structure PTOk where
  is_float16 : Bool
  model : PDict
  logs : List String
  deriving DecidableEq, Repr

/-- `load_pretrained_params(model, path)` (lines 218-255).  `dl` stands for
the external download collaborator `maybe_download_params` (not part of
this module): it resolves a path or identifier to a local path. -/
def load_pretrained_params (dl : String → String) (fs : FS) (model : PDict)
    (path0 : String) : Except PTErr PTOk :=
  let path := strip_pdparams_suffix (dl path0)
  if FS.pathExists fs (path ++ ".pdparams") then
    match paddleLoadParams fs (path ++ ".pdparams") with
    | Except.ok params =>
      let (new_state_dict, is_float16, logs1) := lpp_loop model params
      let model2 := set_state_dict model new_state_dict
      let logs := logs1
        ++ (if is_float16
            then ["info: the parameter type is float16, which is converted to float32 when loading"]
            else [])
        ++ ["info: load pretrain successful from " ++ path]
      Except.ok ⟨is_float16, model2, logs⟩
    | Except.error e => Except.error ⟨e, model, []⟩
  else
    Except.error ⟨"The " ++ path ++ ".pdparams does not exists!", model, []⟩

/-- The `.states` handling shared by the resume branches: unpickle the file
when present, take `best_model_dict` (default empty) and derive
`start_epoch = epoch + 1` when `epoch` is present. -/
def statesStep (fs : FS) (path : String) : Except String MDict :=
  if FS.pathExists fs path then
    match pickleLoadStates fs path with
    | Except.ok states_dict =>
      let b := states_dict.best_model_dict
      Except.ok (match states_dict.epoch with
        | some e => dictSet b "start_epoch" (MVal.int (e + 1))
        | none => b)
    | Except.error e => Except.error e
  else
    Except.ok []

/-- The `checkpoints` branch of `load_model` (lines 91-138).  Returns the
pre-`is_float16` record, the updated model / optimizer, the flag and the
logs. -/
def lm_checkpoints (fs : FS) (checkpoints0 : String) (model : PDict)
    (optimizer : Option OptState) :
    Except LoadErr (MDict × PDict × Option OptState × Bool × List String) :=
  let checkpoints := strip_pdparams_suffix checkpoints0
  if FS.pathExists fs (checkpoints ++ ".pdparams") then
    match paddleLoadParams fs (checkpoints ++ ".pdparams") with
    | Except.ok params =>
      let (new_state_dict, is_float16, logs1) := lm_reconcile params model
      let model2 := set_state_dict model new_state_dict
      let logs2 := logs1
        ++ (if is_float16
            then ["info: the parameter type is float16, which is converted to float32 when loading"]
            else [])
      match optimizer with
      | some _ =>
        if FS.pathExists fs (checkpoints ++ ".pdopt") then
          match paddleLoadOpt fs (checkpoints ++ ".pdopt") with
          | Except.ok optim_dict =>
            (match statesStep fs (checkpoints ++ ".states") with
             | Except.ok best =>
               Except.ok (best, model2, some optim_dict, is_float16,
                 logs2 ++ ["info: resume from " ++ checkpoints])
             | Except.error e =>
               Except.error ⟨e, model2, some optim_dict, logs2⟩)
          | Except.error e => Except.error ⟨e, model2, optimizer, logs2⟩
        else
          (match statesStep fs (checkpoints ++ ".states") with
           | Except.ok best =>
             Except.ok (best, model2, optimizer, is_float16,
               logs2 ++ ["warning: " ++ checkpoints ++ ".pdopt is not exists, params of optimizer is not loaded",
                         "info: resume from " ++ checkpoints])
           | Except.error e =>
             Except.error ⟨e, model2, optimizer, logs2⟩)
      | none =>
        (match statesStep fs (checkpoints ++ ".states") with
         | Except.ok best =>
           Except.ok (best, model2, none, is_float16,
             logs2 ++ ["info: resume from " ++ checkpoints])
         | Except.error e => Except.error ⟨e, model2, none, logs2⟩)
    | Except.error e => Except.error ⟨e, model, optimizer, []⟩
  else
    Except.error ⟨"The " ++ checkpoints ++ ".pdparams does not exists!",
      model, optimizer, []⟩

/-- `checkpoints[-1] in ['/', '\\']` stripping of the kie resume path
(lines 79-80). -/
def stripTrailingSep (s : String) : String :=
  if strEndsWith s "/" || strEndsWith s "\\" then String.mk s.data.dropLast else s

/-- The kie (structured-extraction, non-SDMGR) resume body of `load_model`
(lines 65-89), entered with a truthy `Architecture.Backbone.checkpoints`. -/
def kie_resume (fs : FS) (checkpoints : String) (model : PDict)
    (optimizer : Option OptState) : Except LoadErr LoadOk :=
  let mpath := pathJoin checkpoints "metric.states"
  let step1 : Except LoadErr MDict :=
    if FS.pathExists fs mpath then
      match pickleLoadStates fs mpath with
      | Except.ok states_dict =>
        let b := states_dict.best_model_dict
        Except.ok (match states_dict.epoch with
          | some e => dictSet b "start_epoch" (MVal.int (e + 1))
          | none => b)
      | Except.error e => Except.error ⟨e, model, optimizer, []⟩
    else
      Except.ok []
  match step1 with
  | Except.error e => Except.error e
  | Except.ok best_model_dict =>
    let logs := ["info: resume from " ++ checkpoints]
    match optimizer with
    | some _ =>
      let checkpoints2 := stripTrailingSep checkpoints
      if FS.pathExists fs (checkpoints2 ++ ".pdopt") then
        match paddleLoadOpt fs (checkpoints2 ++ ".pdopt") with
        | Except.ok optim_dict =>
          Except.ok ⟨best_model_dict, model, some optim_dict, logs⟩
        | Except.error e => Except.error ⟨e, model, optimizer, logs⟩
      else
        Except.ok ⟨best_model_dict, model, optimizer,
          logs ++ ["warning: " ++ checkpoints2 ++ ".pdopt is not exists, params of optimizer is not loaded"]⟩
    | none => Except.ok ⟨best_model_dict, model, optimizer, logs⟩

/-- `load_model(config, model, optimizer=None, model_type='det')`
(lines 48-144).  `dl` is the `maybe_download_params` collaborator used by
the delegated `load_pretrained_params`. -/
def load_model (dl : String → String) (fs : FS) (config : Config)
    (model : PDict) (optimizer : Option OptState) (model_type : String) :
    Except LoadErr LoadOk :=
  let is_nlp_model := model_type == "kie" && !(config.algorithm == "SDMGR")
  if is_nlp_model then
    if config.algorithm == "Distillation" then
      Except.ok ⟨[], model, optimizer, []⟩
    else
      match config.backbone_checkpoints with
      | some ckpt =>
        if ckpt == "" then Except.ok ⟨[], model, optimizer, []⟩
        else kie_resume fs ckpt model optimizer
      | none => Except.ok ⟨[], model, optimizer, []⟩
  else
    let step : Except LoadErr (MDict × PDict × Option OptState × Bool × List String) :=
      if truthyStr config.checkpoints then
        lm_checkpoints fs (config.checkpoints.getD "") model optimizer
      else if truthyPM config.pretrained_model then
        match config.pretrained_model with
        | some (PMField.str s) =>
          (match load_pretrained_params dl fs model s with
           | Except.ok r => Except.ok ([], r.model, optimizer, r.is_float16, r.logs)
           | Except.error e => Except.error ⟨e.msg, e.model, optimizer, e.logs⟩)
        | _ =>
          Except.error ⟨"TypeError: pretrained_model path must be a string",
            model, optimizer, []⟩
      else
        Except.ok ([], model, optimizer, false, ["info: train from scratch"])
    match step with
    | Except.error e => Except.error e
    | Except.ok (best, model2, optim2, is_float16, logs) =>
      Except.ok ⟨dictSet best "is_float16" (MVal.bool is_float16),
        model2, optim2, logs⟩

/-- The pretrained loop of `init_model` (lines 177-185): each entry must be
a directory or have a `.pdparams` sibling, else `ValueError`; parameter
state is loaded and applied per entry. -/
def init_pretrained_loop (fs : FS) : List String → PDict → Except PTErr (PDict × List String)
  | [], model => Except.ok (model, [])
  | pretrained :: rest, model =>
    if !(FS.isDir fs pretrained || FS.pathExists fs (pretrained ++ ".pdparams")) then
      Except.error ⟨"Model pretrain path " ++ pretrained ++ " does not exists.",
        model, []⟩
    else
      match paddleLoadParams fs (pretrained ++ ".pdparams") with
      | Except.ok param_state_dict =>
        let model2 := set_state_dict model param_state_dict
        (match init_pretrained_loop fs rest model2 with
         | Except.ok (m3, logs) =>
           Except.ok (m3, ("info: load pretrained model from " ++ pretrained) :: logs)
         | Except.error e =>
           Except.error ⟨e.msg, e.model,
             ("info: load pretrained model from " ++ pretrained) :: e.logs⟩)
      | Except.error e => Except.error ⟨e, model, []⟩

/-- `init_model(config, model, optimizer=None, lr_scheduler=None)`
(lines 146-188): strict resume. -/
def init_model (fs : FS) (config : Config) (model : PDict)
    (optimizer : Option OptState) : Except LoadErr LoadOk :=
  if truthyStr config.checkpoints then
    let checkpoints := config.checkpoints.getD ""
    if !(FS.pathExists fs (checkpoints ++ ".pdparams")) then
      Except.error ⟨"Given dir " ++ checkpoints ++ ".pdparams not exist.",
        model, optimizer, []⟩
    else if !(FS.pathExists fs (checkpoints ++ ".pdopt")) then
      Except.error ⟨"Given dir " ++ checkpoints ++ ".pdopt not exist.",
        model, optimizer, []⟩
    else
      match paddleLoadParams fs (checkpoints ++ ".pdparams"),
            paddleLoadOpt fs (checkpoints ++ ".pdopt") with
      | Except.ok para_dict, Except.ok opti_dict =>
        let model2 := set_state_dict model para_dict
        let optimizer2 := match optimizer with
          | some _ => some opti_dict
          | none => none
        (match statesStep fs (checkpoints ++ ".states") with
         | Except.ok best =>
           Except.ok ⟨best, model2, optimizer2,
             ["info: resume from " ++ checkpoints]⟩
         | Except.error e => Except.error ⟨e, model2, optimizer2, []⟩)
      | Except.error e, _ => Except.error ⟨e, model, optimizer, []⟩
      | _, Except.error e => Except.error ⟨e, model, optimizer, []⟩
  else if truthyPM config.pretrained_model then
    let pms := match config.pretrained_model with
      | some (PMField.str s) => [s]
      | some (PMField.list l) => l
      | none => []
    match init_pretrained_loop fs pms model with
    | Except.ok (model2, logs) => Except.ok ⟨[], model2, optimizer, logs⟩
    | Except.error e => Except.error ⟨e.msg, e.model, optimizer, e.logs⟩
  else
    Except.ok ⟨[], model, optimizer, ["info: train from scratch"]⟩

/-- The positional pairing loop of `load_dygraph_params` (lines 207-213):
`for k1, k2 in zip(state_dict.keys(), params.keys())`, comparing shapes and
taking `params[k2]` under the model's name `k1`.  The `none` fallthrough is
unreachable: the keys are drawn from the respective dicts. -/
def ldp_loop (state_dict params : PDict) : List (String × String) → PDict × List String
  | [] => ([], [])
  | (k1, k2) :: rest =>
    let (nsd, logs) := ldp_loop state_dict params rest
    match pfind state_dict k1, pfind params k2 with
    | some v1, some v2 =>
      if v1.shape == v2.shape then
        ((k1, v2) :: nsd, logs)
      else
        (nsd, ("info: the shape of model params " ++ k1 ++
               " not matched with loaded params " ++ k2 ++ " !") :: logs)
    | _, _ => (nsd, logs)

/-- `load_dygraph_params(config, model, logger, optimizer)` (lines 191-216). -/
def load_dygraph_params (fs : FS) (config : Config) (model : PDict)
    (optimizer : Option OptState) : Except LoadErr LoadOk :=
  let ckp := config.checkpoints
  if truthyStr ckp && FS.pathExists fs (ckp.getD "" ++ ".pdparams") then
    init_model fs config model optimizer
  else
    match config.pretrained_model with
    | none => Except.ok ⟨[], model, optimizer, []⟩
    | some (PMField.list _) =>
      Except.error ⟨"TypeError: pretrained_model path must be a string",
        model, optimizer, []⟩
    | some (PMField.str pm) =>
      if !(FS.pathExists fs pm) && !(FS.pathExists fs (pm ++ ".pdparams")) then
        Except.ok ⟨[], model, optimizer,
          ["info: the pretrained_model " ++ pm ++ " does not exists!"]⟩
      else
        let pmPath := if strEndsWith pm ".pdparams" then pm else pm ++ ".pdparams"
        match paddleLoadParams fs pmPath with
        | Except.ok params =>
          let keyPairs := List.zip (model.map Prod.fst) (params.map Prod.fst)
          let (new_state_dict, logs1) := ldp_loop model params keyPairs
          let model2 := set_state_dict model new_state_dict
          Except.ok ⟨[], model2, optimizer,
            logs1 ++ ["info: loaded pretrained_model successful from " ++ pmPath]⟩
        | Except.error e => Except.error ⟨e, model, optimizer, []⟩

/-- `_mkdir_if_not_exist(path, logger)` (lines 32-45); single-process
embedding, so the concurrent-creation race cannot arise and creation always
succeeds. -/
def _mkdir_if_not_exist (fs : FS) (path : String) : FS :=
  if FS.pathExists fs path then fs else FS.write fs path FileContent.dir

/-- `save_model(model, optimizer, model_path, logger, config, is_best,
prefix, **kwargs)` (lines 258-310).  The backbone `save_pretrained`
delegate of the kie branch is an external collaborator; it is modelled as
creating the directory artifact at the prefix. -/
def save_model (fs : FS) (model : PDict) (optimizer : OptState)
    (model_path : String) (config : Config) (is_best : Bool) (pfx : String)
    (kwargs : StatesDict) : FS :=
  let fs := _mkdir_if_not_exist fs model_path
  let model_pfx := pathJoin model_path pfx
  let best_model_path := pathJoin model_path "best_model"
  let fs := if pfx == "best_accuracy" then _mkdir_if_not_exist fs best_model_path else fs
  let fs := FS.write fs (model_pfx ++ ".pdopt") (FileContent.pdopt optimizer)
  let fs := if pfx == "best_accuracy"
    then FS.write fs (pathJoin best_model_path "model.pdopt") (FileContent.pdopt optimizer)
    else fs
  let is_nlp_model := config.model_type == "kie" && !(config.algorithm == "SDMGR")
  if !is_nlp_model then
    let fs := FS.write fs (model_pfx ++ ".pdparams") (FileContent.pdparams model)
    let fs := if pfx == "best_accuracy"
      then FS.write fs (pathJoin best_model_path "model.pdparams") (FileContent.pdparams model)
      else fs
    FS.write fs (model_pfx ++ ".states") (FileContent.states kwargs)
  else
    let fs := FS.write fs model_pfx FileContent.dir
    let fs := if pfx == "best_accuracy" then FS.write fs best_model_path FileContent.dir else fs
    FS.write fs ((pathJoin model_pfx "metric") ++ ".states") (FileContent.states kwargs)

/-- The per-entry merge that both name-reconciled loads (`load_model` with
checkpoints and `load_pretrained_params`) perform on a target entry: absent
names and shape mismatches keep the prior value, otherwise the loaded value
is cast to the target's dtype and applied. -/
def lm_merge (params : PDict) (kv : String × Tensor) : String × Tensor :=
  match pfind params kv.1 with
  | none => kv
  | some pv0 =>
    let pv := if pv0.dtype != kv.2.dtype then Tensor.astype pv0 kv.2.dtype else pv0
    if kv.2.shape == pv.shape then (kv.1, pv) else kv

/-- "Some loaded parameter whose name occurs in the target model is stored
in half precision": the condition the `is_float16` flags detect. -/
def sharedF16 (params m : PDict) : Prop :=
  ∃ k pv v, pfind params k = some pv ∧ pfind m k = some v ∧ pv.dtype = DType.float16

/-- The entries of `Global.pretrained_model` as normalized by the
pretrained branch of `init_model` (a single path becomes a one-element
list). -/
def pmEntries : Option PMField → List String
  | some (PMField.str s) => [s]
  | some (PMField.list l) => l
  | none => []

/-- The result of the positional-pairing load of `load_dygraph_params`,
stated from the claim: the i-th target entry receives the i-th loaded value
when the shapes agree, and surplus entries on either side are ignored. -/
def positional_merge (m params : PDict) : PDict :=
  (List.zipWith (fun a b => if a.2.shape == b.2.shape then (a.1, b.2) else a) m params)
    ++ m.drop params.length

/-! ### Basic lemmas on dict lookup -/

theorem pfind_eq_none_iff {d : PDict} {k : String} :
    pfind d k = none ↔ k ∉ d.map Prod.fst := by
  induction d with
  | nil => simp [pfind]
  | cons kv rest ih =>
    simp only [pfind, List.map_cons, List.mem_cons]
    by_cases h : kv.1 = k
    · simp [h]
    · simp [beq_eq_false_iff_ne.2 h, ih, Ne.symm h]

theorem pfind_mem {d : PDict} {k : String} {v : Tensor}
    (h : pfind d k = some v) : (k, v) ∈ d := by
  induction d with
  | nil => simp [pfind] at h
  | cons kv rest ih =>
    simp only [pfind] at h
    by_cases hk : kv.1 = k
    · rw [if_pos (by simpa using hk)] at h
      obtain rfl : kv.2 = v := by simpa using h
      rw [← hk]
      exact List.mem_cons_self _ _
    · rw [if_neg (by simpa using hk)] at h
      exact List.mem_cons_of_mem _ (ih h)

theorem pfind_of_mem {d : PDict} (hd : keysNodup d) {k : String} {v : Tensor}
    (h : (k, v) ∈ d) : pfind d k = some v := by
  induction d with
  | nil => simp at h
  | cons kv rest ih =>
    unfold keysNodup at hd
    simp only [List.map_cons, List.nodup_cons] at hd
    rcases List.mem_cons.1 h with h1 | h1
    · rw [← h1]
      simp [pfind]
    · have hk : kv.1 ≠ k := by
        intro he
        exact hd.1 (he ▸ List.mem_map.2 ⟨(k, v), h1, rfl⟩)
      have hb : (kv.1 == k) = false := beq_eq_false_iff_ne.2 hk
      simpa [pfind, hb] using ih hd.2 h1

theorem pfind_isSome_iff {d : PDict} {k : String} :
    (pfind d k).isSome = true ↔ k ∈ d.map Prod.fst := by
  constructor
  · intro h
    by_contra hmem
    rw [pfind_eq_none_iff.2 hmem] at h
    simp at h
  · intro hmem
    cases he : pfind d k with
    | some v => rfl
    | none => exact absurd hmem (pfind_eq_none_iff.1 he)

/-- Lookup through a map by an entry-wise function that preserves keys. -/
theorem pfind_map_of_fst_eq {f : String × Tensor → String × Tensor}
    (hf : ∀ kv, (f kv).1 = kv.1) (d : PDict) (k : String) :
    pfind (d.map f) k = (pfind d k).map (fun v => (f (k, v)).2) := by
  induction d with
  | nil => simp [pfind]
  | cons kv rest ih =>
    obtain ⟨k1, v1⟩ := kv
    simp only [List.map_cons, pfind, hf (k1, v1)]
    by_cases h : k1 = k
    · subst h
      simp
    · simp only [if_neg (by simpa using h : ¬ (k1 == k) = true)]
      exact ih

theorem mfind_map_overwrite_of_any {d : MDict} {k : String} (v : MVal)
    (h : d.any (fun p => p.1 == k) = true) :
    mfind (d.map (fun p => if p.1 == k then (k, v) else p)) k = some v := by
  induction d with
  | nil => simp at h
  | cons p rest ih =>
    simp only [List.map_cons, mfind, beq_iff_eq] at ih ⊢
    by_cases hk : p.1 = k
    · simp [hk]
    · have h2 : rest.any (fun p => p.1 == k) = true := by
        simpa [List.any_cons, beq_eq_false_iff_ne.2 hk] using h
      simp [hk, ih h2]

theorem mfind_append_last {d : MDict} {k : String} (v : MVal)
    (h : d.any (fun p => p.1 == k) = false) :
    mfind (d ++ [(k, v)]) k = some v := by
  induction d with
  | nil => simp [mfind]
  | cons p rest ih =>
    simp only [List.any_cons, Bool.or_eq_false_iff] at h
    have hk : p.1 ≠ k := beq_eq_false_iff_ne.1 h.1
    simp only [List.cons_append, mfind, beq_iff_eq]
    simp [hk, ih h.2]

theorem mfind_dictSet_self (d : MDict) (k : String) (v : MVal) :
    mfind (dictSet d k v) k = some v := by
  unfold dictSet
  cases h : d.any (fun p => p.1 == k) with
  | true => simpa using mfind_map_overwrite_of_any v h
  | false => simpa using mfind_append_last v h

theorem mfind_map_overwrite_ne (d : MDict) {k k' : String} (v : MVal) (h : k ≠ k') :
    mfind (d.map (fun p => if p.1 == k' then (k', v) else p)) k = mfind d k := by
  induction d with
  | nil => simp
  | cons p rest ih =>
    simp only [List.map_cons, mfind, beq_iff_eq] at ih ⊢
    by_cases hk : p.1 = k'
    · simp [hk, Ne.symm h, ih]
    · by_cases hk2 : p.1 = k
      · simp [hk, hk2, h]
      · simp [hk, hk2, ih]

theorem mfind_append_ne (d : MDict) {k k' : String} (v : MVal) (h : k ≠ k') :
    mfind (d ++ [(k', v)]) k = mfind d k := by
  induction d with
  | nil => simp [mfind, beq_eq_false_iff_ne.2 (Ne.symm h)]
  | cons p rest ih =>
    simp only [List.cons_append, mfind, beq_iff_eq] at ih ⊢
    by_cases hk : p.1 = k
    · simp [hk]
    · simp [hk, ih]

theorem mfind_dictSet_ne (d : MDict) {k k' : String} (v : MVal) (h : k ≠ k') :
    mfind (dictSet d k' v) k = mfind d k := by
  unfold dictSet
  cases ha : d.any (fun p => p.1 == k') with
  | true => simpa using mfind_map_overwrite_ne d v h
  | false => simpa using mfind_append_ne d v h

/-! ### Characterization of the name-reconciled loading loops -/

theorem lm_merge_fst (params : PDict) (kv : String × Tensor) :
    (lm_merge params kv).1 = kv.1 := by
  unfold lm_merge
  cases pfind params kv.1 with
  | none => rfl
  | some pv0 =>
    dsimp only
    split <;> split <;> rfl

theorem lm_merge_dtype (params : PDict) (kv : String × Tensor) :
    (lm_merge params kv).2.dtype = kv.2.dtype := by
  unfold lm_merge
  cases h : pfind params kv.1 with
  | none => rfl
  | some pv0 =>
    dsimp only
    by_cases hd : pv0.dtype = kv.2.dtype
    · simp [hd]
      split <;> simp [hd]
    · simp [bne_iff_ne, hd, Tensor.astype]
      split <;> simp [Tensor.astype]

theorem lm_reconcile_keys_sub (params : PDict) (l : PDict) {k : String}
    (h : k ∈ (lm_reconcile params l).1.map Prod.fst) : k ∈ l.map Prod.fst := by
  induction l with
  | nil => simpa [lm_reconcile] using h
  | cons kv rest ih =>
    obtain ⟨key, value⟩ := kv
    simp only [lm_reconcile] at h
    rcases hrec : lm_reconcile params rest with ⟨nsd, f16, logs⟩
    rw [hrec] at h
    cases hp : pfind params key with
    | none =>
      rw [hp] at h
      simp only [List.map_cons, List.mem_cons]
      exact Or.inr (ih (by simpa [hrec] using h))
    | some pv0 =>
      rw [hp] at h
      dsimp only at h
      by_cases hs : (value.shape == (if pv0.dtype != value.dtype then Tensor.astype pv0 value.dtype else pv0).shape) = true
      · rw [if_pos hs] at h
        simp only [List.map_cons, List.mem_cons] at h ⊢
        rcases h with h | h
        · exact Or.inl h
        · exact Or.inr (ih (by simpa [hrec] using h))
      · rw [if_neg hs] at h
        simp only [List.map_cons, List.mem_cons]
        exact Or.inr (ih (by simpa [hrec] using h))

theorem lm_reconcile_find (params : PDict) {l : PDict} (hl : keysNodup l)
    (k : String) :
    pfind (lm_reconcile params l).1 k =
      (match pfind l k, pfind params k with
       | some v, some pv0 =>
         (let pv := if pv0.dtype != v.dtype then Tensor.astype pv0 v.dtype else pv0
          if v.shape == pv.shape then some pv else none)
       | _, _ => none) := by
  induction l with
  | nil => simp [lm_reconcile, pfind]
  | cons kv rest ih =>
    obtain ⟨key, value⟩ := kv
    unfold keysNodup at hl
    simp only [List.map_cons, List.nodup_cons] at hl
    have ihr := ih hl.2
    simp only [lm_reconcile]
    rcases hrec : lm_reconcile params rest with ⟨nsd, f16, logs⟩
    rw [hrec] at ihr
    by_cases hk : key = k
    · subst hk
      have hnone : pfind nsd key = none := by
        rw [pfind_eq_none_iff]
        intro hmem
        exact hl.1 (lm_reconcile_keys_sub params rest (by simpa [hrec] using hmem))
      have hhead : pfind ((key, value) :: rest) key = some value := by
        simp [pfind]
      rw [hhead]
      cases hp : pfind params key with
      | none =>
        simpa using hnone
      | some pv0 =>
        dsimp only
        by_cases hs : (value.shape == (if pv0.dtype != value.dtype then Tensor.astype pv0 value.dtype else pv0).shape) = true
        · rw [if_pos hs, if_pos hs]
          simp [pfind]
        · rw [if_neg hs, if_neg hs]
          simpa using hnone
    · have hb : (key == k) = false := beq_eq_false_iff_ne.2 hk
      have hhead : pfind ((key, value) :: rest) k = pfind rest k := by
        simp [pfind, hb]
      rw [hhead]
      cases hp : pfind params key with
      | none =>
        simpa using ihr
      | some pv0 =>
        dsimp only
        by_cases hs : (value.shape == (if pv0.dtype != value.dtype then Tensor.astype pv0 value.dtype else pv0).shape) = true
        · rw [if_pos hs]
          simpa [pfind, hb] using ihr
        · rw [if_neg hs]
          simpa using ihr

/-- Applying the `load_model` reconciliation loop to the model is an
entry-wise merge (target keys are preserved, each value is merged). -/
theorem lm_apply_eq (params : PDict) {m : PDict} (hm : keysNodup m) :
    set_state_dict m (lm_reconcile params m).1 = m.map (lm_merge params) := by
  unfold set_state_dict
  apply List.map_congr_left
  intro kv hkv
  have hfind : pfind m kv.1 = some kv.2 := pfind_of_mem hm hkv
  rw [lm_reconcile_find params hm kv.1, hfind]
  unfold lm_merge
  cases hp : pfind params kv.1 with
  | none => rfl
  | some pv0 =>
    dsimp only
    by_cases hs : (kv.2.shape == (if (pv0.dtype != kv.2.dtype) = true then Tensor.astype pv0 kv.2.dtype else pv0).shape) = true
    · rw [if_pos hs, if_pos hs]
    · rw [if_neg hs, if_neg hs]

theorem lpp_loop_keys_sub (m params : PDict) {k : String}
    (h : k ∈ (lpp_loop m params).1.map Prod.fst) : k ∈ params.map Prod.fst := by
  induction params with
  | nil => simpa [lpp_loop] using h
  | cons kv rest ih =>
    obtain ⟨k1, pv0⟩ := kv
    simp only [lpp_loop] at h
    rcases hrec : lpp_loop m rest with ⟨nsd, f16, logs⟩
    rw [hrec] at h
    cases hp : pfind m k1 with
    | none =>
      rw [hp] at h
      simp only [List.map_cons, List.mem_cons]
      exact Or.inr (ih (by simpa [hrec] using h))
    | some v =>
      rw [hp] at h
      dsimp only at h
      by_cases hs : (v.shape == (if pv0.dtype != v.dtype then Tensor.astype pv0 v.dtype else pv0).shape) = true
      · rw [if_pos hs] at h
        simp only [List.map_cons, List.mem_cons] at h ⊢
        rcases h with h | h
        · exact Or.inl h
        · exact Or.inr (ih (by simpa [hrec] using h))
      · rw [if_neg hs] at h
        simp only [List.map_cons, List.mem_cons]
        exact Or.inr (ih (by simpa [hrec] using h))

theorem lpp_loop_find (m : PDict) {params : PDict} (hp : keysNodup params)
    (k : String) :
    pfind (lpp_loop m params).1 k =
      (match pfind params k, pfind m k with
       | some pv0, some v =>
         (let pv := if pv0.dtype != v.dtype then Tensor.astype pv0 v.dtype else pv0
          if v.shape == pv.shape then some pv else none)
       | _, _ => none) := by
  induction params with
  | nil => simp [lpp_loop, pfind]
  | cons kv rest ih =>
    obtain ⟨k1, pv0⟩ := kv
    unfold keysNodup at hp
    simp only [List.map_cons, List.nodup_cons] at hp
    have ihr := ih hp.2
    simp only [lpp_loop]
    rcases hrec : lpp_loop m rest with ⟨nsd, f16, logs⟩
    rw [hrec] at ihr
    by_cases hk : k1 = k
    · subst hk
      have hnone : pfind nsd k1 = none := by
        rw [pfind_eq_none_iff]
        intro hmem
        exact hp.1 (lpp_loop_keys_sub m rest (by simpa [hrec] using hmem))
      have hhead : pfind ((k1, pv0) :: rest) k1 = some pv0 := by
        simp [pfind]
      rw [hhead]
      cases hm1 : pfind m k1 with
      | none =>
        simpa using hnone
      | some v =>
        dsimp only
        by_cases hs : (v.shape == (if (pv0.dtype != v.dtype) = true then Tensor.astype pv0 v.dtype else pv0).shape) = true
        · rw [if_pos hs, if_pos hs]
          simp [pfind]
        · rw [if_neg hs, if_neg hs]
          simpa using hnone
    · have hb : (k1 == k) = false := beq_eq_false_iff_ne.2 hk
      have hhead : pfind ((k1, pv0) :: rest) k = pfind rest k := by
        simp [pfind, hb]
      rw [hhead]
      cases hm1 : pfind m k1 with
      | none =>
        simpa using ihr
      | some v =>
        dsimp only
        by_cases hs : (v.shape == (if (pv0.dtype != v.dtype) = true then Tensor.astype pv0 v.dtype else pv0).shape) = true
        · rw [if_pos hs]
          simpa [pfind, hb] using ihr
        · rw [if_neg hs]
          simpa using ihr

/-- Applying the `load_pretrained_params` loop to the model is the same
entry-wise merge as for the `load_model` loop. -/
theorem lpp_apply_eq {m params : PDict} (hm : keysNodup m) (hp : keysNodup params) :
    set_state_dict m (lpp_loop m params).1 = m.map (lm_merge params) := by
  unfold set_state_dict
  apply List.map_congr_left
  intro kv hkv
  have hfind : pfind m kv.1 = some kv.2 := pfind_of_mem hm hkv
  rw [lpp_loop_find m hp kv.1, hfind]
  unfold lm_merge
  cases hp0 : pfind params kv.1 with
  | none => rfl
  | some pv0 =>
    dsimp only
    by_cases hs : (kv.2.shape == (if (pv0.dtype != kv.2.dtype) = true then Tensor.astype pv0 kv.2.dtype else pv0).shape) = true
    · rw [if_pos hs, if_pos hs]
    · rw [if_neg hs, if_neg hs]

theorem lm_reconcile_flag (params l : PDict) :
    (lm_reconcile params l).2.1 =
      l.any (fun kv => match pfind params kv.1 with
        | some pv0 => pv0.dtype == DType.float16
        | none => false) := by
  induction l with
  | nil => rfl
  | cons kv rest ih =>
    obtain ⟨key, value⟩ := kv
    simp only [lm_reconcile]
    rcases hrec : lm_reconcile params rest with ⟨nsd, f16, logs⟩
    rw [hrec] at ih
    cases hp : pfind params key with
    | none =>
      simpa [List.any_cons, pfind, hp] using ih
    | some pv0 =>
      dsimp only
      by_cases hs : (value.shape == (if (pv0.dtype != value.dtype) = true then Tensor.astype pv0 value.dtype else pv0).shape) = true
      · rw [if_pos hs]
        simpa [List.any_cons, pfind, hp] using congrArg (fun b => (pv0.dtype == DType.float16) || b) ih
      · rw [if_neg hs]
        simpa [List.any_cons, pfind, hp] using congrArg (fun b => (pv0.dtype == DType.float16) || b) ih

theorem lpp_loop_flag (m params : PDict) :
    (lpp_loop m params).2.1 =
      params.any (fun kv => (pfind m kv.1).isSome && (kv.2.dtype == DType.float16)) := by
  induction params with
  | nil => rfl
  | cons kv rest ih =>
    obtain ⟨k1, pv0⟩ := kv
    simp only [lpp_loop]
    rcases hrec : lpp_loop m rest with ⟨nsd, f16, logs⟩
    rw [hrec] at ih
    cases hm1 : pfind m k1 with
    | none =>
      simpa [List.any_cons, hm1] using ih
    | some v =>
      dsimp only
      by_cases hs : (v.shape == (if (pv0.dtype != v.dtype) = true then Tensor.astype pv0 v.dtype else pv0).shape) = true
      · rw [if_pos hs]
        simpa [List.any_cons, hm1] using congrArg (fun b => (pv0.dtype == DType.float16) || b) ih
      · rw [if_neg hs]
        simpa [List.any_cons, hm1] using congrArg (fun b => (pv0.dtype == DType.float16) || b) ih

theorem lm_flag_iff (params : PDict) {m : PDict} (hm : keysNodup m) :
    ((lm_reconcile params m).2.1 = true) ↔ sharedF16 params m := by
  rw [lm_reconcile_flag, List.any_eq_true]
  constructor
  · rintro ⟨kv, hkv, hf⟩
    cases hp : pfind params kv.1 with
    | none => simp [hp] at hf
    | some pv0 =>
      simp only [hp] at hf
      exact ⟨kv.1, pv0, kv.2, hp, pfind_of_mem hm hkv, by simpa using hf⟩
  · rintro ⟨k, pv, v, hp, hmf, hdt⟩
    exact ⟨(k, v), pfind_mem hmf, by simp [hp, hdt]⟩

theorem lpp_flag_iff {params : PDict} (m : PDict) (hp : keysNodup params) :
    ((lpp_loop m params).2.1 = true) ↔ sharedF16 params m := by
  rw [lpp_loop_flag, List.any_eq_true]
  constructor
  · rintro ⟨kv, hkv, hf⟩
    simp only [Bool.and_eq_true, Option.isSome_iff_exists] at hf
    obtain ⟨⟨v, hv⟩, hdt⟩ := hf
    exact ⟨kv.1, kv.2, v, pfind_of_mem hp hkv, hv, by simpa using hdt⟩
  · rintro ⟨k, pv, v, hpp, hmf, hdt⟩
    exact ⟨(k, pv), pfind_mem hpp, by simp [hmf, hdt]⟩

/-- Lookup in the merged model. -/
theorem pfind_merge (params m : PDict) (k : String) :
    pfind (m.map (lm_merge params)) k =
      (pfind m k).map (fun v => (lm_merge params (k, v)).2) :=
  pfind_map_of_fst_eq (lm_merge_fst params) m k

/-! ### Inversion lemmas for the load operations -/

theorem lm_checkpoints_spec {fs : FS} {ck : String} {model : PDict}
    {optimizer : Option OptState}
    {out : MDict × PDict × Option OptState × Bool × List String}
    (h : lm_checkpoints fs ck model optimizer = Except.ok out) :
    ∃ params,
      paddleLoadParams fs (strip_pdparams_suffix ck ++ ".pdparams") = Except.ok params ∧
      statesStep fs (strip_pdparams_suffix ck ++ ".states") = Except.ok out.1 ∧
      out.2.1 = set_state_dict model (lm_reconcile params model).1 ∧
      out.2.2.2.1 = (lm_reconcile params model).2.1 := by
  unfold lm_checkpoints at h
  dsimp only at h
  by_cases h1 : FS.pathExists fs (strip_pdparams_suffix ck ++ ".pdparams") = true
  · rw [if_pos h1] at h
    cases h2 : paddleLoadParams fs (strip_pdparams_suffix ck ++ ".pdparams") with
    | error e => rw [h2] at h; cases h
    | ok params =>
      rw [h2] at h
      dsimp only at h
      refine ⟨params, rfl, ?_⟩
      cases hss : statesStep fs (strip_pdparams_suffix ck ++ ".states") with
      | error e =>
        rw [hss] at h
        cases optimizer with
        | none => cases h
        | some o =>
          by_cases h3 : FS.pathExists fs (strip_pdparams_suffix ck ++ ".pdopt") = true
          · rw [if_pos h3] at h
            cases h4 : paddleLoadOpt fs (strip_pdparams_suffix ck ++ ".pdopt") with
            | error e2 => rw [h4] at h; cases h
            | ok od => rw [h4] at h; cases h
          · rw [if_neg h3] at h; cases h
      | ok best =>
        rw [hss] at h
        cases optimizer with
        | none =>
          cases h
          exact ⟨rfl, rfl, rfl⟩
        | some o =>
          by_cases h3 : FS.pathExists fs (strip_pdparams_suffix ck ++ ".pdopt") = true
          · rw [if_pos h3] at h
            cases h4 : paddleLoadOpt fs (strip_pdparams_suffix ck ++ ".pdopt") with
            | error e2 => rw [h4] at h; cases h
            | ok od =>
              rw [h4] at h
              cases h
              exact ⟨rfl, rfl, rfl⟩
          · rw [if_neg h3] at h
            cases h
            exact ⟨rfl, rfl, rfl⟩
  · rw [if_neg h1] at h; cases h

theorem load_model_ck_inv {dl : String → String} {fs : FS} {config : Config}
    {model : PDict} {optimizer : Option OptState} {model_type : String}
    {r : LoadOk}
    (hnlp : (model_type == "kie" && !(config.algorithm == "SDMGR")) = false)
    (hck : truthyStr config.checkpoints = true)
    (h : load_model dl fs config model optimizer model_type = Except.ok r) :
    ∃ out, lm_checkpoints fs (config.checkpoints.getD "") model optimizer = Except.ok out ∧
      r.best_model_dict = dictSet out.1 "is_float16" (MVal.bool out.2.2.2.1) ∧
      r.model = out.2.1 ∧ r.optim = out.2.2.1 := by
  unfold load_model at h
  rw [hnlp] at h
  rw [if_neg (by simp)] at h
  rw [hck] at h
  rw [if_pos rfl] at h
  cases hlc : lm_checkpoints fs (config.checkpoints.getD "") model optimizer with
  | error e => rw [hlc] at h; cases h
  | ok out =>
    rw [hlc] at h
    obtain ⟨best, m2, o2, f16, logs⟩ := out
    dsimp only at h
    cases h
    exact ⟨(best, m2, o2, f16, logs), rfl, rfl, rfl, rfl⟩

theorem load_model_pm_inv {dl : String → String} {fs : FS} {config : Config}
    {model : PDict} {optimizer : Option OptState} {model_type : String}
    {s : String} {r : LoadOk}
    (hnlp : (model_type == "kie" && !(config.algorithm == "SDMGR")) = false)
    (hck : truthyStr config.checkpoints = false)
    (hpm : config.pretrained_model = some (PMField.str s))
    (hs : ¬ s = "")
    (h : load_model dl fs config model optimizer model_type = Except.ok r) :
    ∃ pr, load_pretrained_params dl fs model s = Except.ok pr ∧
      r.best_model_dict = [("is_float16", MVal.bool pr.is_float16)] ∧
      r.model = pr.model ∧ r.optim = optimizer := by
  unfold load_model at h
  rw [hnlp] at h
  rw [if_neg (by simp)] at h
  rw [hck] at h
  rw [if_neg (by simp)] at h
  rw [hpm] at h
  have ht : truthyPM (some (PMField.str s)) = true := by
    simp [truthyPM, hs]
  rw [ht] at h
  rw [if_pos rfl] at h
  dsimp only at h
  cases hpp : load_pretrained_params dl fs model s with
  | error e => rw [hpp] at h; cases h
  | ok pr =>
    rw [hpp] at h
    dsimp only at h
    cases h
    exact ⟨pr, rfl, by simp [dictSet], rfl, rfl⟩

theorem load_pretrained_params_inv {dl : String → String} {fs : FS}
    {model : PDict} {path0 : String} {pr : PTOk}
    (h : load_pretrained_params dl fs model path0 = Except.ok pr) :
    ∃ params,
      paddleLoadParams fs (strip_pdparams_suffix (dl path0) ++ ".pdparams") = Except.ok params ∧
      pr.model = set_state_dict model (lpp_loop model params).1 ∧
      pr.is_float16 = (lpp_loop model params).2.1 := by
  unfold load_pretrained_params at h
  dsimp only at h
  by_cases h1 : FS.pathExists fs (strip_pdparams_suffix (dl path0) ++ ".pdparams") = true
  · rw [if_pos h1] at h
    cases h2 : paddleLoadParams fs (strip_pdparams_suffix (dl path0) ++ ".pdparams") with
    | error e => rw [h2] at h; cases h
    | ok params =>
      rw [h2] at h
      dsimp only at h
      cases h
      exact ⟨params, rfl, rfl, rfl⟩
  · rw [if_neg h1] at h; cases h

theorem init_model_ck_inv {fs : FS} {config : Config} {model : PDict}
    {optimizer : Option OptState} {r : LoadOk}
    (hck : truthyStr config.checkpoints = true)
    (h : init_model fs config model optimizer = Except.ok r) :
    ∃ para opti,
      paddleLoadParams fs (config.checkpoints.getD "" ++ ".pdparams") = Except.ok para ∧
      paddleLoadOpt fs (config.checkpoints.getD "" ++ ".pdopt") = Except.ok opti ∧
      statesStep fs (config.checkpoints.getD "" ++ ".states") = Except.ok r.best_model_dict ∧
      r.model = set_state_dict model para ∧
      r.optim = (match optimizer with | some _ => some opti | none => none) := by
  unfold init_model at h
  rw [hck] at h
  rw [if_pos rfl] at h
  dsimp only at h
  cases h1 : FS.pathExists fs (config.checkpoints.getD "" ++ ".pdparams") with
  | false =>
    rw [h1] at h
    rw [if_pos (show (!false) = true from rfl)] at h
    cases h
  | true =>
    rw [h1] at h
    rw [if_neg (show ¬ (!true) = true by simp)] at h
    cases h2 : FS.pathExists fs (config.checkpoints.getD "" ++ ".pdopt") with
    | false =>
      rw [h2] at h
      rw [if_pos (show (!false) = true from rfl)] at h
      cases h
    | true =>
      rw [h2] at h
      rw [if_neg (show ¬ (!true) = true by simp)] at h
      cases h3 : paddleLoadParams fs (config.checkpoints.getD "" ++ ".pdparams") with
      | error e =>
        rw [h3] at h
        cases h4 : paddleLoadOpt fs (config.checkpoints.getD "" ++ ".pdopt") with
        | error e2 => rw [h4] at h; cases h
        | ok opti => rw [h4] at h; cases h
      | ok para =>
        rw [h3] at h
        cases h4 : paddleLoadOpt fs (config.checkpoints.getD "" ++ ".pdopt") with
        | error e => rw [h4] at h; dsimp only at h; cases h
        | ok opti =>
          rw [h4] at h
          dsimp only at h
          cases hss : statesStep fs (config.checkpoints.getD "" ++ ".states") with
          | error e => rw [hss] at h; cases h
          | ok best =>
            rw [hss] at h
            cases h
            cases optimizer with
            | none => exact ⟨para, opti, rfl, rfl, rfl, rfl, rfl⟩
            | some o => exact ⟨para, opti, rfl, rfl, rfl, rfl, rfl⟩

/-! ### String and filesystem lemmas for the save/resume round trip -/

theorem str_append_cancel {a s t : String} (h : a ++ s = a ++ t) : s = t := by
  apply String.ext
  have h2 := congrArg String.data h
  simp only [String.data_append] at h2
  exact List.append_cancel_left h2

theorem str_append_assoc (a b c : String) : (a ++ b) ++ c = a ++ (b ++ c) := by
  apply String.ext
  simp [String.data_append]

theorem str_empty_append (b : String) : "" ++ b = b := by
  apply String.ext
  simp [String.data_append]

theorem str_append_ne_empty (a : String) {s : String} (hs : ¬ s = "") :
    ¬ (a ++ s = "") := by
  intro h
  have h2 := congrArg String.data h
  simp only [String.data_append] at h2
  exact hs (String.ext (List.append_eq_nil.1 h2).2)

theorem str_ne_of_append_ne (a : String) {s t : String} (h : ¬ s = t) :
    ¬ (a ++ s = a ++ t) :=
  fun he => h (str_append_cancel he)

theorem str_append_empty (a : String) : a ++ "" = a := by
  apply String.ext
  simp [String.data_append]

theorem str_self_ne_append (a : String) {x : String} (hx : ¬ x = "") :
    ¬ (a = a ++ x) := by
  intro h
  apply hx
  have h2 : a ++ "" = a ++ x := by
    rw [str_append_empty]
    exact h
  exact (str_append_cancel h2).symm

theorem getLast?_append_str (a : String) {s : String} (hs : s.data ≠ []) :
    (a ++ s).data.getLast? = s.data.getLast? := by
  rw [String.data_append]
  exact List.getLast?_append_of_ne_nil _ hs

theorem pathJoin_eq_pre (a b : String) : pathJoin a b = joinPre a ++ b := by
  unfold pathJoin joinPre
  by_cases h1 : (a == "") = true
  · rw [if_pos h1, if_pos h1]
    exact (str_empty_append b).symm
  · rw [if_neg h1, if_neg h1]
    by_cases h2 : a.data.getLast? = some '/'
    · rw [if_pos h2, if_pos h2]
    · rw [if_neg h2, if_neg h2]

theorem pathJoin_std {a : String} (h1 : (a == "") = false)
    (h2 : ¬ a.data.getLast? = some '/') (b : String) :
    pathJoin a b = a ++ "/" ++ b := by
  unfold pathJoin
  rw [h1]
  rw [if_neg (by simp)]
  rw [if_neg h2]

theorem pathJoin_ne_empty (a : String) {b : String} (hb : ¬ b = "") :
    ¬ (pathJoin a b = "") := by
  rw [pathJoin_eq_pre]
  exact str_append_ne_empty _ hb

/-- Two paths rooted at the same directory with different relative tails
are distinct. -/
theorem pathJoin_pre_ne (a : String) {s t : String} (h : ¬ s = t) :
    ¬ (joinPre a ++ s = joinPre a ++ t) :=
  str_ne_of_append_ne _ h

/-- A path below `<D>/best_model` never collides with a sibling file
`<D>/best_accuracy<X>` unless the tails collide. -/
theorem pathJoin_best_model_ne (D y X : String)
    (hy : ¬ ("best_model" ++ ("/" ++ y) = "best_accuracy" ++ X)) :
    ¬ (pathJoin (pathJoin D "best_model") y = pathJoin D "best_accuracy" ++ X) := by
  intro he
  apply hy
  have hne : ¬ (joinPre D ++ "best_model" = "") :=
    str_append_ne_empty _ (by decide)
  have hlast : (joinPre D ++ "best_model").data.getLast? = some 'l' := by
    rw [getLast?_append_str _ (by decide)]
    decide
  rw [pathJoin_eq_pre D "best_model",
      pathJoin_std (beq_eq_false_iff_ne.2 hne) (by rw [hlast]; decide) y,
      pathJoin_eq_pre D "best_accuracy"] at he
  rw [str_append_assoc (joinPre D) "best_model" "/", str_append_assoc] at he
  rw [str_append_assoc (joinPre D) "best_accuracy" X] at he
  exact str_append_cancel he

theorem FS.find_write_self (fs : FS) (p : String) (c : FileContent) :
    FS.find (FS.write fs p c) p = some c := by
  simp [FS.write, FS.find]

theorem FS.find_write_ne (fs : FS) (p : String) (c : FileContent) {q : String}
    (h : ¬ p = q) : FS.find (FS.write fs p c) q = FS.find fs q := by
  simp [FS.write, FS.find, beq_eq_false_iff_ne.2 h]

theorem find_mkdir_ne (fs : FS) (d : String) {q : String} (h : ¬ d = q) :
    FS.find (_mkdir_if_not_exist fs d) q = FS.find fs q := by
  unfold _mkdir_if_not_exist
  split
  · rfl
  · exact FS.find_write_ne fs d FileContent.dir h

theorem set_state_dict_self {m : PDict} (hm : keysNodup m) :
    set_state_dict m m = m := by
  unfold set_state_dict
  have h : ∀ kv ∈ m, (match pfind m kv.1 with
      | some w => (kv.1, w)
      | none => kv) = kv := by
    intro kv hkv
    rw [pfind_of_mem hm hkv]
  calc m.map (fun kv => match pfind m kv.1 with
          | some w => (kv.1, w)
          | none => kv)
      = m.map (fun kv => kv) := List.map_congr_left h
    _ = m := List.map_id _

/-- The three artifacts written by a (non-structured-extraction) save are
found at the standard paths with the saved contents. -/
theorem save_model_find (fs : FS) (model : PDict) (optimizer : OptState)
    (D : String) (config : Config) (is_best : Bool) (p : String)
    (kwargs : StatesDict)
    (hnlp : (config.model_type == "kie" && !(config.algorithm == "SDMGR")) = false) :
    FS.find (save_model fs model optimizer D config is_best p kwargs)
        (pathJoin D p ++ ".pdparams") = some (FileContent.pdparams model) ∧
    FS.find (save_model fs model optimizer D config is_best p kwargs)
        (pathJoin D p ++ ".pdopt") = some (FileContent.pdopt optimizer) ∧
    FS.find (save_model fs model optimizer D config is_best p kwargs)
        (pathJoin D p ++ ".states") = some (FileContent.states kwargs) := by
  unfold save_model
  rw [hnlp]
  rw [if_pos (show (!false) = true from rfl)]
  by_cases hbest : (p == "best_accuracy") = true
  · have hp : p = "best_accuracy" := by simpa using hbest
    subst hp
    simp only [if_pos hbest]
    refine ⟨?_, ?_, ?_⟩
    · rw [FS.find_write_ne _ _ _
            (str_ne_of_append_ne (pathJoin D "best_accuracy") (by decide)),
          FS.find_write_ne _ _ _
            (pathJoin_best_model_ne D "model.pdparams" ".pdparams" (by decide)),
          FS.find_write_self]
    · rw [FS.find_write_ne _ _ _
            (str_ne_of_append_ne (pathJoin D "best_accuracy") (by decide)),
          FS.find_write_ne _ _ _
            (pathJoin_best_model_ne D "model.pdparams" ".pdopt" (by decide)),
          FS.find_write_ne _ _ _
            (str_ne_of_append_ne (pathJoin D "best_accuracy") (by decide)),
          FS.find_write_ne _ _ _
            (pathJoin_best_model_ne D "model.pdopt" ".pdopt" (by decide)),
          FS.find_write_self]
    · rw [FS.find_write_self]
  · simp only [if_neg hbest]
    refine ⟨?_, ?_, ?_⟩
    · rw [FS.find_write_ne _ _ _
            (str_ne_of_append_ne (pathJoin D p) (by decide)),
          FS.find_write_self]
    · rw [FS.find_write_ne _ _ _
            (str_ne_of_append_ne (pathJoin D p) (by decide)),
          FS.find_write_ne _ _ _
            (str_ne_of_append_ne (pathJoin D p) (by decide)),
          FS.find_write_self]
    · rw [FS.find_write_self]

theorem paddleLoadOpt_ok {fs : FS} {p : String} {o : OptState}
    (h : paddleLoadOpt fs p = Except.ok o) : FS.find fs p = some (FileContent.pdopt o) := by
  unfold paddleLoadOpt at h
  cases hf : FS.find fs p with
  | none => rw [hf] at h; cases h
  | some c =>
    rw [hf] at h
    cases c with
    | pdopt o2 => cases h; rfl
    | pdparams d => cases h
    | states s => cases h
    | dir => cases h

/-- A `.states` file containing `epoch = n` makes the states step return
the record with `start_epoch = n + 1` merged in. -/
theorem statesStep_of_find {fs : FS} {path : String} {bmd : MDict} {n : Int}
    (h : FS.find fs path = some (FileContent.states ⟨bmd, some n⟩)) :
    statesStep fs path = Except.ok (dictSet bmd "start_epoch" (MVal.int (n + 1))) := by
  unfold statesStep
  have hex : FS.pathExists fs path = true := by
    unfold FS.pathExists
    rw [h]
    rfl
  rw [hex]
  rw [if_pos rfl]
  unfold pickleLoadStates
  rw [h]

theorem castTo_eq_astype (pv : Tensor) (d : DType) :
    (if pv.dtype != d then Tensor.astype pv d else pv) = Tensor.astype pv d := by
  by_cases h : pv.dtype = d
  · rw [if_neg (by simp [h])]
    obtain ⟨sh, dt, da⟩ := pv
    dsimp only at h
    subst h
    rfl
  · rw [if_pos (by simp [h])]

/-- A shape-mismatched shared entry is skipped by the merge: the target
keeps its prior value. -/
theorem merge_skip {params model : PDict} {k0 : String} {t0 v0 : Tensor}
    (hp0 : pfind params k0 = some t0) (hm0 : pfind model k0 = some v0)
    (hsh : ¬ t0.shape = v0.shape) :
    pfind (model.map (lm_merge params)) k0 = some v0 := by
  rw [pfind_merge, hm0]
  have hm : lm_merge params (k0, v0) = (k0, v0) := by
    unfold lm_merge
    dsimp only
    rw [hp0]
    dsimp only
    rw [castTo_eq_astype]
    rw [if_neg (by simp [Tensor.astype]; exact fun h => hsh h.symm)]
  simp [hm]

/-- A shape-matched shared entry is applied by the merge, cast to the
target's dtype. -/
theorem merge_apply {params model : PDict} {k : String} {pv v : Tensor}
    (hp : pfind params k = some pv) (hm : pfind model k = some v)
    (hsh : pv.shape = v.shape) :
    pfind (model.map (lm_merge params)) k = some (Tensor.astype pv v.dtype) := by
  rw [pfind_merge, hm]
  have hmm : lm_merge params (k, v) = (k, Tensor.astype pv v.dtype) := by
    unfold lm_merge
    dsimp only
    rw [hp]
    dsimp only
    rw [castTo_eq_astype]
    rw [if_pos (by simp [Tensor.astype, hsh])]
  simp [hmm]

/-- The merge never changes the dtype of any target parameter. -/
theorem merge_dtype_preserved (params model : PDict) (k : String) :
    (pfind (model.map (lm_merge params)) k).map Tensor.dtype =
      (pfind model k).map Tensor.dtype := by
  rw [pfind_merge]
  cases h : pfind model k with
  | none => rfl
  | some v => simp [lm_merge_dtype]

/-! ### The positional-pairing loop of `load_dygraph_params` -/

theorem ldp_loop_spec (m params : PDict) :
    ∀ (zl : List ((String × Tensor) × (String × Tensor))),
      (∀ e ∈ zl, pfind m e.1.1 = some e.1.2 ∧ pfind params e.2.1 = some e.2.2) →
      ldp_loop m params (zl.map (fun e => (e.1.1, e.2.1))) =
        ((zl.filter (fun e => e.1.2.shape == e.2.2.shape)).map (fun e => (e.1.1, e.2.2)),
         (zl.filter (fun e => !(e.1.2.shape == e.2.2.shape))).map
           (fun e => "info: the shape of model params " ++ e.1.1 ++
             " not matched with loaded params " ++ e.2.1 ++ " !")) := by
  intro zl
  induction zl with
  | nil => intro _; rfl
  | cons e zl' ih =>
    intro h
    obtain ⟨⟨k1, v1⟩, k2, v2⟩ := e
    have he := h ((k1, v1), (k2, v2)) (List.mem_cons_self _ _)
    have hrest := fun x hx => h x (List.mem_cons_of_mem _ hx)
    simp only [List.map_cons, ldp_loop]
    rw [ih hrest]
    dsimp only at he ⊢
    rw [he.1, he.2]
    dsimp only
    by_cases hsh : (v1.shape == v2.shape) = true
    · rw [if_pos hsh]
      simp [List.filter_cons, hsh]
    · rw [if_neg hsh]
      simp only [List.filter_cons]
      have hb : (v1.shape == v2.shape) = false := by
        cases hv : (v1.shape == v2.shape) with
        | true => exact absurd hv hsh
        | false => rfl
      simp [hb]

theorem zip_keys_eq (m params : PDict) :
    List.zip (m.map Prod.fst) (params.map Prod.fst) =
      (m.zip params).map (fun e => (e.1.1, e.2.1)) := by
  rw [List.zip_map]
  rfl

theorem posNsd_keys_sub (m params : PDict) {k : String}
    (hk : k ∈ (((m.zip params).filter (fun e => e.1.2.shape == e.2.2.shape)).map
      (fun e => (e.1.1, e.2.2))).map Prod.fst) : k ∈ m.map Prod.fst := by
  simp only [List.map_map, List.mem_map, Function.comp] at hk
  obtain ⟨e, he, hke⟩ := hk
  have hmem := List.of_mem_zip (List.mem_of_mem_filter he)
  exact List.mem_map.2 ⟨e.1, hmem.1, hke⟩

theorem set_state_dict_nil (m : PDict) : set_state_dict m [] = m := by
  unfold set_state_dict
  have h : ∀ kv ∈ m, (match pfind ([] : PDict) kv.1 with
      | some w => (kv.1, w)
      | none => kv) = kv := fun kv _ => rfl
  rw [List.map_congr_left h]
  exact List.map_id _

theorem pfind_cons_ne {k0 : String} {v0 : Tensor} {rest : PDict} {k : String}
    (h : (k0 == k) = false) : pfind ((k0, v0) :: rest) k = pfind rest k := by
  simp [pfind, h]

/-- An sd entry whose key occurs nowhere in the model is irrelevant to
`set_state_dict`. -/
theorem set_state_dict_sd_cons_ne {m : PDict} {k0 : String} {v0 : Tensor} (sd : PDict)
    (h : ∀ kv ∈ m, (k0 == kv.1) = false) :
    set_state_dict m ((k0, v0) :: sd) = set_state_dict m sd := by
  unfold set_state_dict
  apply List.map_congr_left
  intro kv hkv
  rw [pfind_cons_ne (h kv hkv)]

/-- Applying the positionally-built `new_state_dict` of
`load_dygraph_params` to the model realizes exactly the positional merge:
pairing strictly by position, surplus entries ignored. -/
theorem set_positional {m : PDict} : ∀ {params : PDict}, keysNodup m →
    set_state_dict m
      (((m.zip params).filter (fun e => e.1.2.shape == e.2.2.shape)).map
        (fun e => (e.1.1, e.2.2))) = positional_merge m params := by
  induction m with
  | nil =>
    intro params _
    simp [set_state_dict, positional_merge]
  | cons a m' ih =>
    intro params hm
    unfold keysNodup at hm
    simp only [List.map_cons, List.nodup_cons] at hm
    have htail : ∀ kv ∈ m', (a.1 == kv.1) = false := by
      intro kv hkv
      exact beq_eq_false_iff_ne.2 (fun he => hm.1 (he ▸ List.mem_map.2 ⟨kv, hkv, rfl⟩))
    cases params with
    | nil =>
      simp [positional_merge, set_state_dict_nil]
    | cons b p' =>
      obtain ⟨ka, va⟩ := a
      obtain ⟨kb, vb⟩ := b
      have hposm : positional_merge ((ka, va) :: m') ((kb, vb) :: p') =
          (if (va.shape == vb.shape) = true then (ka, vb) else (ka, va)) ::
            positional_merge m' p' := by
        unfold positional_merge
        simp [List.zipWith]
      rw [hposm]
      have hzip : ((ka, va) :: m').zip ((kb, vb) :: p') =
          ((ka, va), (kb, vb)) :: m'.zip p' := rfl
      rw [hzip]
      simp only [List.filter_cons]
      by_cases hsh : (va.shape == vb.shape) = true
      · rw [if_pos (by simpa using hsh), if_pos hsh]
        simp only [List.map_cons]
        show (match pfind ((ka, vb) :: _) ka with
          | some w => (ka, w)
          | none => (ka, va)) :: set_state_dict m' ((ka, vb) ::
            ((m'.zip p').filter (fun e => e.1.2.shape == e.2.2.shape)).map
              (fun e => (e.1.1, e.2.2))) = _
        rw [show pfind ((ka, vb) ::
            ((m'.zip p').filter (fun e => e.1.2.shape == e.2.2.shape)).map
              (fun e => (e.1.1, e.2.2))) ka = some vb by simp [pfind]]
        rw [set_state_dict_sd_cons_ne _ htail, ih hm.2]
      · rw [if_neg (by simpa using hsh), if_neg hsh]
        have hnone : pfind (((m'.zip p').filter
            (fun e => e.1.2.shape == e.2.2.shape)).map (fun e => (e.1.1, e.2.2))) ka = none := by
          rw [pfind_eq_none_iff]
          intro hmem
          exact hm.1 (posNsd_keys_sub m' p' hmem)
        show (match pfind _ ka with
          | some w => (ka, w)
          | none => (ka, va)) :: set_state_dict m' _ = _
        rw [hnone, ih hm.2]

/-- With neither source truthy (and not a kie model), `load_model` logs
"train from scratch" and only adds `is_float16 = false`. -/
theorem load_model_scratch (dl : String → String) (fs : FS) (config : Config)
    (model : PDict) (optimizer : Option OptState) (model_type : String)
    (hnlp : (model_type == "kie" && !(config.algorithm == "SDMGR")) = false)
    (hck : truthyStr config.checkpoints = false)
    (hpm : truthyPM config.pretrained_model = false) :
    load_model dl fs config model optimizer model_type =
      Except.ok ⟨[("is_float16", MVal.bool false)], model, optimizer,
        ["info: train from scratch"]⟩ := by
  unfold load_model
  rw [hnlp]
  rw [if_neg (by simp)]
  rw [hck]
  rw [if_neg (by simp)]
  rw [hpm]
  rw [if_neg (by simp)]
  rfl

/-! ### Claim theorems -/

/-- C5: when exactly one loaded entry shares its name with a target entry
but differs in shape, the name-reconciled loads (`load_model` with
checkpoints and `load_pretrained_params`) skip exactly that entry — the
target keeps its prior value — and apply every other same-name entry
(cast to the target's dtype). -/
theorem C5_shape_mismatch_skip :
    ∀ (dl : String → String) (fs : FS) (config : Config) (model : PDict)
      (optimizer : Option OptState) (model_type : String) (params : PDict)
      (k0 : String) (t0 v0 : Tensor),
      keysNodup model → keysNodup params →
      pfind params k0 = some t0 → pfind model k0 = some v0 →
      ¬ t0.shape = v0.shape →
      (∀ k pv v, ¬ k = k0 → pfind params k = some pv → pfind model k = some v →
        pv.shape = v.shape) →
      ((((model_type == "kie" && !(config.algorithm == "SDMGR")) = false) →
        truthyStr config.checkpoints = true →
        paddleLoadParams fs (strip_pdparams_suffix (config.checkpoints.getD "") ++ ".pdparams") =
          Except.ok params →
        ∀ r, load_model dl fs config model optimizer model_type = Except.ok r →
          pfind r.model k0 = some v0 ∧
          (∀ k pv v, ¬ k = k0 → pfind params k = some pv → pfind model k = some v →
            pfind r.model k = some (Tensor.astype pv v.dtype))) ∧
       (∀ path0 pr,
        paddleLoadParams fs (strip_pdparams_suffix (dl path0) ++ ".pdparams") =
          Except.ok params →
        load_pretrained_params dl fs model path0 = Except.ok pr →
          pfind pr.model k0 = some v0 ∧
          (∀ k pv v, ¬ k = k0 → pfind params k = some pv → pfind model k = some v →
            pfind pr.model k = some (Tensor.astype pv v.dtype)))) := by
  intro dl fs config model optimizer model_type params k0 t0 v0
    hm hpn hp0 hm0 hsh hothers
  constructor
  · intro hnlp hck hload r hr
    obtain ⟨out, hout, hbest, hmdl, hopt⟩ := load_model_ck_inv hnlp hck hr
    obtain ⟨params2, hpar, hss, hm2, hf⟩ := lm_checkpoints_spec hout
    rw [hload] at hpar
    injection hpar with hpe
    subst hpe
    have hrm : r.model = model.map (lm_merge params) := by
      rw [hmdl, hm2, lm_apply_eq params hm]
    rw [hrm]
    exact ⟨merge_skip hp0 hm0 hsh,
      fun k pv v hk hp hmv => merge_apply hp hmv (hothers k pv v hk hp hmv)⟩
  · intro path0 pr hload hpr
    obtain ⟨params2, hpar, hm2, hf⟩ := load_pretrained_params_inv hpr
    rw [hload] at hpar
    injection hpar with hpe
    subst hpe
    have hrm : pr.model = model.map (lm_merge params) := by
      rw [hm2, lpp_apply_eq hm hpn]
    rw [hrm]
    exact ⟨merge_skip hp0 hm0 hsh,
      fun k pv v hk hp hmv => merge_apply hp hmv (hothers k pv v hk hp hmv)⟩

/-- C6: when the loaded mapping contains a half-precision entry whose name
occurs in the target model, the produced `is_float16` flag is true and
every parameter of the resulting model keeps its prior (full-precision)
dtype. -/
theorem C6_float16_promotion :
    ∀ (dl : String → String) (fs : FS) (config : Config) (model : PDict)
      (optimizer : Option OptState) (model_type : String) (params : PDict)
      (kf : String) (tf : Tensor),
      keysNodup model → keysNodup params →
      pfind params kf = some tf → tf.dtype = DType.float16 →
      (pfind model kf).isSome = true →
      ((((model_type == "kie" && !(config.algorithm == "SDMGR")) = false) →
        truthyStr config.checkpoints = true →
        paddleLoadParams fs (strip_pdparams_suffix (config.checkpoints.getD "") ++ ".pdparams") =
          Except.ok params →
        ∀ r, load_model dl fs config model optimizer model_type = Except.ok r →
          mfind r.best_model_dict "is_float16" = some (MVal.bool true) ∧
          (∀ k, (pfind r.model k).map Tensor.dtype = (pfind model k).map Tensor.dtype)) ∧
       (∀ path0 pr,
        paddleLoadParams fs (strip_pdparams_suffix (dl path0) ++ ".pdparams") =
          Except.ok params →
        load_pretrained_params dl fs model path0 = Except.ok pr →
          pr.is_float16 = true ∧
          (∀ k, (pfind pr.model k).map Tensor.dtype = (pfind model k).map Tensor.dtype))) := by
  intro dl fs config model optimizer model_type params kf tf hm hpn hpkf hdt hsome
  obtain ⟨vf, hvf⟩ := Option.isSome_iff_exists.1 hsome
  have hshared : sharedF16 params model := ⟨kf, tf, vf, hpkf, hvf, hdt⟩
  constructor
  · intro hnlp hck hload r hr
    obtain ⟨out, hout, hbest, hmdl, hopt⟩ := load_model_ck_inv hnlp hck hr
    obtain ⟨params2, hpar, hss, hm2, hf⟩ := lm_checkpoints_spec hout
    rw [hload] at hpar
    injection hpar with hpe
    subst hpe
    have hflag : out.2.2.2.1 = true := by
      rw [hf]
      exact (lm_flag_iff params hm).2 hshared
    have hrm : r.model = model.map (lm_merge params) := by
      rw [hmdl, hm2, lm_apply_eq params hm]
    constructor
    · rw [hbest, hflag, mfind_dictSet_self]
    · intro k
      rw [hrm]
      exact merge_dtype_preserved params model k
  · intro path0 pr hload hpr
    obtain ⟨params2, hpar, hm2, hf⟩ := load_pretrained_params_inv hpr
    rw [hload] at hpar
    injection hpar with hpe
    subst hpe
    have hrm : pr.model = model.map (lm_merge params) := by
      rw [hm2, lpp_apply_eq hm hpn]
    constructor
    · rw [hf]
      exact (lpp_flag_iff model hpn).2 hshared
    · intro k
      rw [hrm]
      exact merge_dtype_preserved params model k

/-- C7: for every `.states` record containing integer `epoch = n`, a resume
via `load_model` or `init_model` returns a record with `start_epoch = n + 1`
merged into the best-model record. -/
theorem C7_start_epoch_increment :
    (∀ (dl : String → String) (fs : FS) (config : Config) (model : PDict)
        (optimizer : Option OptState) (model_type : String) (bmd : MDict) (n : Int),
      (model_type == "kie" && !(config.algorithm == "SDMGR")) = false →
      truthyStr config.checkpoints = true →
      FS.find fs (strip_pdparams_suffix (config.checkpoints.getD "") ++ ".states") =
        some (FileContent.states ⟨bmd, some n⟩) →
      ∀ r, load_model dl fs config model optimizer model_type = Except.ok r →
        mfind r.best_model_dict "start_epoch" = some (MVal.int (n + 1))) ∧
    (∀ (fs : FS) (config : Config) (model : PDict) (optimizer : Option OptState)
        (bmd : MDict) (n : Int),
      truthyStr config.checkpoints = true →
      FS.find fs (config.checkpoints.getD "" ++ ".states") =
        some (FileContent.states ⟨bmd, some n⟩) →
      ∀ r, init_model fs config model optimizer = Except.ok r →
        mfind r.best_model_dict "start_epoch" = some (MVal.int (n + 1))) := by
  constructor
  · intro dl fs config model optimizer model_type bmd n hnlp hck hfind r hr
    obtain ⟨out, hout, hbest, hmdl, hopt⟩ := load_model_ck_inv hnlp hck hr
    obtain ⟨params, hpar, hss, hm2, hf⟩ := lm_checkpoints_spec hout
    rw [statesStep_of_find hfind] at hss
    injection hss with h'
    rw [hbest, mfind_dictSet_ne _ _ (by decide), ← h', mfind_dictSet_self]
  · intro fs config model optimizer bmd n hck hfind r hr
    obtain ⟨para, opti, h1, h2, hss, hm2, hopt⟩ := init_model_ck_inv hck hr
    rw [statesStep_of_find hfind] at hss
    injection hss with h'
    rw [← h', mfind_dictSet_self]

/-- Witness for C7: resuming a `.states` file with `epoch = 4` yields
`start_epoch = 5`, via both `load_model` and `init_model`. -/
theorem C7_start_epoch_increment_witness :
    mfind [("start_epoch", MVal.int 5), ("is_float16", MVal.bool false)] "start_epoch" =
        some (MVal.int 5) ∧
    mfind [("start_epoch", MVal.int 5)] "start_epoch" = some (MVal.int 5) :=
  ⟨C7_start_epoch_increment.1 id
      [("ck.pdparams", FileContent.pdparams [("a", ⟨[2], DType.float32, [1]⟩)]),
       ("ck.states", FileContent.states ⟨[], some 4⟩)]
      ⟨some "ck", none, "det", "DB", none, false⟩
      [("a", ⟨[2], DType.float32, [1]⟩)] none "det" [] 4
      (by decide) (by decide) (by decide)
      ⟨[("start_epoch", MVal.int 5), ("is_float16", MVal.bool false)],
       [("a", ⟨[2], DType.float32, [1]⟩)], none, ["info: resume from ck"]⟩ rfl,
   C7_start_epoch_increment.2
      [("ck.pdopt", FileContent.pdopt []),
       ("ck.pdparams", FileContent.pdparams [("a", ⟨[2], DType.float32, [1]⟩)]),
       ("ck.states", FileContent.states ⟨[], some 4⟩)]
      ⟨some "ck", none, "det", "DB", none, false⟩
      [("a", ⟨[2], DType.float32, [1]⟩)] none [] 4
      (by decide) (by decide)
      ⟨[("start_epoch", MVal.int 5)],
       [("a", ⟨[2], DType.float32, [1]⟩)], none, ["info: resume from ck"]⟩ rfl⟩

/-- C9: on the structured-extraction (kie, non-SDMGR) path, `load_model`
applies no parameter state: on success the model is returned unchanged, and
the optimizer is either unchanged or set to exactly the contents of the
backbone checkpoint's `.pdopt` file. -/
theorem C9_kie_frame (dl : String → String) (fs : FS) (config : Config)
    (model : PDict) (optimizer : Option OptState) (model_type : String)
    (hnlp : (model_type == "kie" && !(config.algorithm == "SDMGR")) = true) :
    ∀ r, load_model dl fs config model optimizer model_type = Except.ok r →
      r.model = model ∧
      (r.optim = optimizer ∨
        ∃ od, r.optim = some od ∧ optimizer.isSome = true ∧
          FS.find fs (stripTrailingSep (config.backbone_checkpoints.getD "") ++ ".pdopt") =
            some (FileContent.pdopt od)) := by
  intro r hr
  unfold load_model at hr
  rw [hnlp] at hr
  rw [if_pos rfl] at hr
  by_cases hd : (config.algorithm == "Distillation") = true
  · rw [if_pos hd] at hr
    cases hr
    exact ⟨rfl, Or.inl rfl⟩
  · rw [if_neg hd] at hr
    cases hbc : config.backbone_checkpoints with
    | none =>
      rw [hbc] at hr
      dsimp only at hr
      cases hr
      exact ⟨rfl, Or.inl rfl⟩
    | some ckpt =>
      rw [hbc] at hr
      dsimp only at hr
      by_cases hce : (ckpt == "") = true
      · rw [if_pos hce] at hr
        cases hr
        exact ⟨rfl, Or.inl rfl⟩
      · rw [if_neg hce] at hr
        unfold kie_resume at hr
        dsimp only at hr
        by_cases hmp : FS.pathExists fs (pathJoin ckpt "metric.states") = true
        · rw [if_pos hmp] at hr
          cases hpl : pickleLoadStates fs (pathJoin ckpt "metric.states") with
          | error e =>
            rw [hpl] at hr
            dsimp only at hr
            cases hr
          | ok sd =>
            rw [hpl] at hr
            dsimp only at hr
            cases optimizer with
            | none =>
              cases hr
              exact ⟨rfl, Or.inl rfl⟩
            | some o =>
              by_cases hop : FS.pathExists fs (stripTrailingSep ckpt ++ ".pdopt") = true
              · rw [if_pos hop] at hr
                cases hlo : paddleLoadOpt fs (stripTrailingSep ckpt ++ ".pdopt") with
                | error e =>
                  rw [hlo] at hr
                  cases hr
                | ok od =>
                  rw [hlo] at hr
                  cases hr
                  refine ⟨rfl, Or.inr ⟨od, rfl, rfl, ?_⟩⟩
                  simpa using paddleLoadOpt_ok hlo
              · rw [if_neg hop] at hr
                cases hr
                exact ⟨rfl, Or.inl rfl⟩
        · rw [if_neg hmp] at hr
          dsimp only at hr
          cases optimizer with
          | none =>
            cases hr
            exact ⟨rfl, Or.inl rfl⟩
          | some o =>
            by_cases hop : FS.pathExists fs (stripTrailingSep ckpt ++ ".pdopt") = true
            · rw [if_pos hop] at hr
              cases hlo : paddleLoadOpt fs (stripTrailingSep ckpt ++ ".pdopt") with
              | error e =>
                rw [hlo] at hr
                cases hr
              | ok od =>
                rw [hlo] at hr
                cases hr
                refine ⟨rfl, Or.inr ⟨od, rfl, rfl, ?_⟩⟩
                simpa using paddleLoadOpt_ok hlo
            · rw [if_neg hop] at hr
              cases hr
              exact ⟨rfl, Or.inl rfl⟩

/-- C8: for every configuration with neither `checkpoints` nor
`pretrained_model` set (and not a structured-extraction model type),
`load_model` returns a record whose only key is `is_float16 = false`,
`init_model` returns an empty record, and neither operation modifies the
model or optimizer state. -/
theorem C8_no_source_noop (dl : String → String) (fs : FS) (config : Config)
    (model : PDict) (optimizer : Option OptState) (model_type : String)
    (hnlp : (model_type == "kie" && !(config.algorithm == "SDMGR")) = false)
    (hck : truthyStr config.checkpoints = false)
    (hpm : truthyPM config.pretrained_model = false) :
    load_model dl fs config model optimizer model_type =
      Except.ok ⟨[("is_float16", MVal.bool false)], model, optimizer,
        ["info: train from scratch"]⟩ ∧
    init_model fs config model optimizer =
      Except.ok ⟨[], model, optimizer, ["info: train from scratch"]⟩ := by
  constructor
  · exact load_model_scratch dl fs config model optimizer model_type hnlp hck hpm
  · unfold init_model
    rw [hck]
    rw [if_neg (by simp)]
    rw [hpm]
    rw [if_neg (by simp)]

/-- Witness for C8 at a concrete configuration. -/
theorem C8_no_source_noop_witness :
    load_model id [] ⟨none, none, "det", "DB", none, false⟩
        [("a", ⟨[2], DType.float32, [0]⟩)] none "det" =
      Except.ok ⟨[("is_float16", MVal.bool false)], [("a", ⟨[2], DType.float32, [0]⟩)], none,
        ["info: train from scratch"]⟩ ∧
    init_model [] ⟨none, none, "det", "DB", none, false⟩
        [("a", ⟨[2], DType.float32, [0]⟩)] none =
      Except.ok ⟨[], [("a", ⟨[2], DType.float32, [0]⟩)], none, ["info: train from scratch"]⟩ :=
  C8_no_source_noop id [] ⟨none, none, "det", "DB", none, false⟩
    [("a", ⟨[2], DType.float32, [0]⟩)] none "det" (by decide) (by decide) (by decide)

/-- C2: when a required checkpoint/pretrained file is explicitly configured
but absent on disk (`checkpoints + ".pdparams"` for `load_model`;
`checkpoints + ".pdparams"` or `+ ".pdopt"` for `init_model`; each
pretrained entry neither a directory nor `<path>.pdparams`), the load
raises a fatal error before applying any state, leaving model and optimizer
unmodified. -/
theorem C2_missing_required_file_fatal :
    (∀ (dl : String → String) (fs : FS) (config : Config) (model : PDict)
        (optimizer : Option OptState) (model_type : String),
      (model_type == "kie" && !(config.algorithm == "SDMGR")) = false →
      truthyStr config.checkpoints = true →
      FS.pathExists fs (strip_pdparams_suffix (config.checkpoints.getD "") ++ ".pdparams") = false →
      ∃ e, load_model dl fs config model optimizer model_type = Except.error e ∧
        e.model = model ∧ e.optim = optimizer) ∧
    (∀ (fs : FS) (config : Config) (model : PDict) (optimizer : Option OptState),
      truthyStr config.checkpoints = true →
      (FS.pathExists fs (config.checkpoints.getD "" ++ ".pdparams") = false ∨
       FS.pathExists fs (config.checkpoints.getD "" ++ ".pdopt") = false) →
      ∃ e, init_model fs config model optimizer = Except.error e ∧
        e.model = model ∧ e.optim = optimizer) ∧
    (∀ (fs : FS) (config : Config) (model : PDict) (optimizer : Option OptState),
      truthyStr config.checkpoints = false →
      truthyPM config.pretrained_model = true →
      (∀ p ∈ pmEntries config.pretrained_model,
        FS.isDir fs p = false ∧ FS.pathExists fs (p ++ ".pdparams") = false) →
      ∃ e, init_model fs config model optimizer = Except.error e ∧
        e.model = model ∧ e.optim = optimizer) := by
  refine ⟨?_, ?_, ?_⟩
  · intro dl fs config model optimizer model_type hnlp hck habs
    unfold load_model
    rw [hnlp]
    rw [if_neg (by simp)]
    rw [hck]
    rw [if_pos rfl]
    unfold lm_checkpoints
    dsimp only
    rw [habs]
    rw [if_neg (by simp)]
    exact ⟨_, rfl, rfl, rfl⟩
  · intro fs config model optimizer hck hdisj
    unfold init_model
    rw [hck]
    rw [if_pos rfl]
    dsimp only
    cases h1 : FS.pathExists fs (config.checkpoints.getD "" ++ ".pdparams") with
    | false =>
      rw [if_pos (show (!false) = true from rfl)]
      exact ⟨_, rfl, rfl, rfl⟩
    | true =>
      rw [if_neg (show ¬ (!true) = true by simp)]
      have h2 : FS.pathExists fs (config.checkpoints.getD "" ++ ".pdopt") = false := by
        rcases hdisj with h | h
        · rw [h1] at h; cases h
        · exact h
      rw [h2]
      rw [if_pos (show (!false) = true from rfl)]
      exact ⟨_, rfl, rfl, rfl⟩
  · intro fs config model optimizer hck hpm habs
    unfold init_model
    rw [hck]
    rw [if_neg (by simp)]
    rw [hpm]
    rw [if_pos rfl]
    dsimp only
    cases hc : config.pretrained_model with
    | none => rw [hc] at hpm; simp [truthyPM] at hpm
    | some pm =>
      cases pm with
      | str s =>
        have hmem := habs s (by simp [pmEntries, hc])
        dsimp only
        unfold init_pretrained_loop
        rw [hmem.1, hmem.2]
        rw [if_pos (show (!(false || false)) = true from rfl)]
        exact ⟨_, rfl, rfl, rfl⟩
      | list l =>
        cases l with
        | nil => rw [hc] at hpm; simp [truthyPM] at hpm
        | cons p rest =>
          have hmem := habs p (by simp [pmEntries, hc])
          dsimp only
          unfold init_pretrained_loop
          rw [hmem.1, hmem.2]
          rw [if_pos (show (!(false || false)) = true from rfl)]
          exact ⟨_, rfl, rfl, rfl⟩

/-- C1, counterexample: on the structured-extraction Distillation early
return, the record returned by `load_model` does NOT contain the key
`is_float16`, contradicting the claim that it does on every path. -/
theorem C1_counterexample :
    ∃ r, load_model id [] ⟨none, none, "kie", "Distillation", none, false⟩
        [("a", ⟨[2], DType.float32, [0]⟩)] none "kie" = Except.ok r ∧
      mfind r.best_model_dict "is_float16" = none :=
  ⟨⟨[], [("a", ⟨[2], DType.float32, [0]⟩)], none, []⟩, rfl, rfl⟩

/-- C1 (amended): on every non-structured-extraction path, the record
returned by `load_model` contains the boolean key `is_float16`; it is
`false` when no checkpoint/pretrained path was taken, and on the
checkpoints / pretrained paths it is `true` exactly when some loaded
parameter whose name occurs in the target model is stored in half
precision (i.e. required half-to-full promotion). -/
theorem C1_is_float16_key (dl : String → String) (fs : FS) (config : Config)
    (model : PDict) (optimizer : Option OptState) (model_type : String)
    (hnlp : (model_type == "kie" && !(config.algorithm == "SDMGR")) = false) :
    ∀ r, load_model dl fs config model optimizer model_type = Except.ok r →
      (∃ b, mfind r.best_model_dict "is_float16" = some (MVal.bool b)) ∧
      (truthyStr config.checkpoints = false → truthyPM config.pretrained_model = false →
        mfind r.best_model_dict "is_float16" = some (MVal.bool false)) ∧
      (∀ params, truthyStr config.checkpoints = true →
        paddleLoadParams fs (strip_pdparams_suffix (config.checkpoints.getD "") ++ ".pdparams") =
          Except.ok params →
        keysNodup model →
        (mfind r.best_model_dict "is_float16" = some (MVal.bool true) ↔
          sharedF16 params model)) ∧
      (∀ s params, truthyStr config.checkpoints = false →
        config.pretrained_model = some (PMField.str s) → ¬ s = "" →
        paddleLoadParams fs (strip_pdparams_suffix (dl s) ++ ".pdparams") =
          Except.ok params →
        keysNodup params →
        (mfind r.best_model_dict "is_float16" = some (MVal.bool true) ↔
          sharedF16 params model)) := by
  intro r hr
  cases htck : truthyStr config.checkpoints with
  | true =>
    obtain ⟨out, hout, hbest, hmdl, hopt⟩ := load_model_ck_inv hnlp htck hr
    refine ⟨⟨out.2.2.2.1, by rw [hbest, mfind_dictSet_self]⟩, ?_, ?_, ?_⟩
    · intro h
      cases h
    · intro params hck hload hm
      obtain ⟨params2, hpar, hss, hm2, hf⟩ := lm_checkpoints_spec hout
      rw [hload] at hpar
      injection hpar with hpe
      subst hpe
      rw [hbest, mfind_dictSet_self]
      constructor
      · intro hsome
        apply (lm_flag_iff params hm).1
        rw [← hf]
        simpa using hsome
      · intro hsh
        rw [hf, (lm_flag_iff params hm).2 hsh]
    · intro s params h
      cases h
  | false =>
    cases hc : config.pretrained_model with
    | none =>
      rw [load_model_scratch dl fs config model optimizer model_type hnlp htck
        (by rw [hc]; rfl)] at hr
      cases hr
      refine ⟨⟨false, rfl⟩, fun _ _ => rfl, ?_, ?_⟩
      · intro params hck hload hm
        cases hck
      · intro s params h hcfg hs hload hn
        cases hcfg
    | some pmf =>
      cases pmf with
      | str s0 =>
        by_cases hs0 : s0 = ""
        · subst hs0
          rw [load_model_scratch dl fs config model optimizer model_type hnlp htck
            (by rw [hc]; rfl)] at hr
          cases hr
          refine ⟨⟨false, rfl⟩, fun _ _ => rfl, ?_, ?_⟩
          · intro params hck hload hm
            cases hck
          · intro s params h hcfg hsne hload hn
            injection hcfg with h2
            injection h2 with h3
            exact absurd h3.symm hsne
        · obtain ⟨pr, hpp, hbest, hmdl, hopt⟩ :=
            load_model_pm_inv hnlp htck hc hs0 hr
          refine ⟨⟨pr.is_float16, by rw [hbest]; rfl⟩, ?_, ?_, ?_⟩
          · intro _ hpm
            simp [truthyPM, hs0] at hpm
          · intro params hck hload hm
            cases hck
          · intro s params h hcfg hsne hload hn
            injection hcfg with h2
            injection h2 with h3
            subst h3
            obtain ⟨params2, hpar, hm2, hf⟩ := load_pretrained_params_inv hpp
            rw [hload] at hpar
            injection hpar with hpe
            subst hpe
            rw [hbest]
            have hmf : mfind [("is_float16", MVal.bool pr.is_float16)] "is_float16" =
                some (MVal.bool pr.is_float16) := rfl
            rw [hmf]
            constructor
            · intro hsome
              apply (lpp_flag_iff model hn).1
              rw [← hf]
              simpa using hsome
            · intro hsh
              rw [hf, (lpp_flag_iff model hn).2 hsh]
      | list l =>
        cases l with
        | nil =>
          rw [load_model_scratch dl fs config model optimizer model_type hnlp htck
            (by rw [hc]; rfl)] at hr
          cases hr
          refine ⟨⟨false, rfl⟩, fun _ _ => rfl, ?_, ?_⟩
          · intro params hck hload hm
            cases hck
          · intro s params h hcfg hs hload hn
            cases hcfg
        | cons p0 rest =>
          exfalso
          unfold load_model at hr
          rw [hnlp] at hr
          rw [if_neg (by simp)] at hr
          rw [htck] at hr
          rw [if_neg (by simp)] at hr
          rw [hc] at hr
          rw [show truthyPM (some (PMField.list (p0 :: rest))) = true from rfl] at hr
          rw [if_pos rfl] at hr
          cases hr

/-- Witness for C1 (amended): on a checkpoints resume with a float16
parameter, the key is present and its truth is equivalent to the presence
of a shared half-precision parameter. -/
theorem C1_is_float16_key_witness :
    (∃ b, mfind [("is_float16", MVal.bool true)] "is_float16" = some (MVal.bool b)) ∧
    sharedF16 [("a", ⟨[2], DType.float16, [9]⟩)] [("a", ⟨[2], DType.float32, [1]⟩)] := by
  have h := C1_is_float16_key id
    [("pk.pdparams", FileContent.pdparams [("a", ⟨[2], DType.float16, [9]⟩)])]
    ⟨some "pk", none, "det", "DB", none, false⟩
    [("a", ⟨[2], DType.float32, [1]⟩)] none "det" (by decide)
    ⟨[("is_float16", MVal.bool true)], [("a", ⟨[2], DType.float32, [9]⟩)], none,
     ["info: the parameter type is float16, which is converted to float32 when loading",
      "info: resume from pk"]⟩ rfl
  exact ⟨h.1,
    (h.2.2.1 [("a", ⟨[2], DType.float16, [9]⟩)] (by decide) rfl (by decide)).1 rfl⟩

/-- Witness for C5: the shape-mismatched entry `a` is skipped (prior value
kept) while the matching entry `b` is applied, in both loads. -/
theorem C5_shape_mismatch_skip_witness :
    pfind [("a", ⟨[2, 2], DType.float32, [1]⟩), ("b", ⟨[3], DType.float32, [7]⟩)] "a" =
        some ⟨[2, 2], DType.float32, [1]⟩ ∧
    pfind [("a", ⟨[2, 2], DType.float32, [1]⟩), ("b", ⟨[3], DType.float32, [7]⟩)] "b" =
        some (Tensor.astype ⟨[3], DType.float32, [7]⟩ DType.float32) ∧
    pfind [("a", ⟨[2, 2], DType.float32, [1]⟩), ("b", ⟨[3], DType.float32, [7]⟩)] "a" =
        some ⟨[2, 2], DType.float32, [1]⟩ ∧
    pfind [("a", ⟨[2, 2], DType.float32, [1]⟩), ("b", ⟨[3], DType.float32, [7]⟩)] "b" =
        some (Tensor.astype ⟨[3], DType.float32, [7]⟩ DType.float32) := by
  have hothers : ∀ (k : String) (pv v : Tensor), ¬ k = "a" →
      pfind [("a", ⟨[9], DType.float32, [5]⟩), ("b", ⟨[3], DType.float32, [7]⟩)] k = some pv →
      pfind [("a", ⟨[2, 2], DType.float32, [1]⟩), ("b", ⟨[3], DType.float32, [2]⟩)] k = some v →
      pv.shape = v.shape := by
    intro k pv v hk hp hmv
    by_cases hb : k = "b"
    · subst hb
      injection (show some (⟨[3], DType.float32, [7]⟩ : Tensor) = some pv from hp) with hpv
      injection (show some (⟨[3], DType.float32, [2]⟩ : Tensor) = some v from hmv) with hv
      rw [← hpv, ← hv]
    · exfalso
      have hnone : pfind [("a", ⟨[9], DType.float32, [5]⟩), ("b", ⟨[3], DType.float32, [7]⟩)] k = none := by
        simp [pfind, beq_eq_false_iff_ne.2 (fun h => hk h.symm),
          beq_eq_false_iff_ne.2 (fun h => hb h.symm)]
      rw [hnone] at hp
      cases hp
  have h := C5_shape_mismatch_skip id
    [("ck.pdparams", FileContent.pdparams
      [("a", ⟨[9], DType.float32, [5]⟩), ("b", ⟨[3], DType.float32, [7]⟩)])]
    ⟨some "ck", none, "det", "DB", none, false⟩
    [("a", ⟨[2, 2], DType.float32, [1]⟩), ("b", ⟨[3], DType.float32, [2]⟩)]
    none "det"
    [("a", ⟨[9], DType.float32, [5]⟩), ("b", ⟨[3], DType.float32, [7]⟩)]
    "a" ⟨[9], DType.float32, [5]⟩ ⟨[2, 2], DType.float32, [1]⟩
    (by decide) (by decide) rfl rfl (by decide) hothers
  have hck := h.1 (by decide) (by decide) rfl
    ⟨[("is_float16", MVal.bool false)],
     [("a", ⟨[2, 2], DType.float32, [1]⟩), ("b", ⟨[3], DType.float32, [7]⟩)], none,
     ["warning: the shape of model params a not matched with loaded params shape !",
      "info: resume from ck"]⟩ rfl
  have hpm := h.2 "ck"
    ⟨false,
     [("a", ⟨[2, 2], DType.float32, [1]⟩), ("b", ⟨[3], DType.float32, [7]⟩)],
     ["warning: the shape of model params a not matched with loaded params shape !",
      "info: load pretrain successful from ck"]⟩ rfl rfl
  exact ⟨hck.1,
    hck.2 "b" ⟨[3], DType.float32, [7]⟩ ⟨[3], DType.float32, [2]⟩ (by decide) rfl rfl,
    hpm.1,
    hpm.2 "b" ⟨[3], DType.float32, [7]⟩ ⟨[3], DType.float32, [2]⟩ (by decide) rfl rfl⟩

/-- Witness for C6: a float16 entry sets the flag and the applied value
keeps the target's float32 dtype, in both loads. -/
theorem C6_float16_promotion_witness :
    mfind [("is_float16", MVal.bool true)] "is_float16" = some (MVal.bool true) ∧
    (pfind [("a", ⟨[2], DType.float32, [9]⟩)] "a").map Tensor.dtype =
      (pfind [("a", ⟨[2], DType.float32, [1]⟩)] "a").map Tensor.dtype ∧
    (true : Bool) = true := by
  have h := C6_float16_promotion id
    [("pk.pdparams", FileContent.pdparams [("a", ⟨[2], DType.float16, [9]⟩)])]
    ⟨some "pk", none, "det", "DB", none, false⟩
    [("a", ⟨[2], DType.float32, [1]⟩)] none "det"
    [("a", ⟨[2], DType.float16, [9]⟩)]
    "a" ⟨[2], DType.float16, [9]⟩
    (by decide) (by decide) rfl rfl rfl
  have hck := h.1 (by decide) (by decide) rfl
    ⟨[("is_float16", MVal.bool true)], [("a", ⟨[2], DType.float32, [9]⟩)], none,
     ["info: the parameter type is float16, which is converted to float32 when loading",
      "info: resume from pk"]⟩ rfl
  have hpm := h.2 "pk"
    ⟨true, [("a", ⟨[2], DType.float32, [9]⟩)],
     ["info: the parameter type is float16, which is converted to float32 when loading",
      "info: load pretrain successful from pk"]⟩ rfl rfl
  exact ⟨hck.1, hck.2 "a", hpm.1⟩

/-- C3: saving a model/optimizer pair with `save_model` to directory `D`
and prefix `p`, then strict-resuming with `init_model` from
`checkpoints = D/p`, restores parameter and optimizer states bit-identical
to the states that were saved (the model keeps exactly the saved parameter
state; a resuming optimizer receives exactly the saved optimizer state). -/
theorem C3_save_resume_roundtrip (fs : FS) (model : PDict) (optimizer : OptState)
    (D p : String) (config config2 : Config) (is_best : Bool)
    (kwargs : StatesDict) (optimizer2 : Option OptState)
    (hm : keysNodup model)
    (hnlp : (config.model_type == "kie" && !(config.algorithm == "SDMGR")) = false)
    (hp : ¬ p = "")
    (hck2 : config2.checkpoints = some (pathJoin D p)) :
    ∃ r, init_model (save_model fs model optimizer D config is_best p kwargs)
        config2 model optimizer2 = Except.ok r ∧
      r.model = model ∧
      (∀ o2, optimizer2 = some o2 → r.optim = some optimizer) ∧
      (optimizer2 = none → r.optim = none) := by
  obtain ⟨hA, hB, hC⟩ := save_model_find fs model optimizer D config is_best p kwargs hnlp
  generalize hgen : save_model fs model optimizer D config is_best p kwargs = fs2 at hA hB hC ⊢
  have hne : ¬ (pathJoin D p = "") := pathJoin_ne_empty D hp
  unfold init_model
  rw [hck2]
  have ht : truthyStr (some (pathJoin D p)) = true := by
    simp [truthyStr, beq_eq_false_iff_ne.2 hne]
  rw [ht]
  rw [if_pos rfl]
  dsimp only [Option.getD]
  have hex1 : FS.pathExists fs2 (pathJoin D p ++ ".pdparams") = true := by
    unfold FS.pathExists
    rw [hA]
    rfl
  rw [hex1]
  rw [if_neg (show ¬ (!true) = true by simp)]
  have hex2 : FS.pathExists fs2 (pathJoin D p ++ ".pdopt") = true := by
    unfold FS.pathExists
    rw [hB]
    rfl
  rw [hex2]
  rw [if_neg (show ¬ (!true) = true by simp)]
  have hld1 : paddleLoadParams fs2 (pathJoin D p ++ ".pdparams") = Except.ok model := by
    unfold paddleLoadParams
    rw [hA]
  rw [hld1]
  have hld2 : paddleLoadOpt fs2 (pathJoin D p ++ ".pdopt") = Except.ok optimizer := by
    unfold paddleLoadOpt
    rw [hB]
  rw [hld2]
  dsimp only
  have hss : statesStep fs2 (pathJoin D p ++ ".states") = Except.ok
      (match kwargs.epoch with
       | some e => dictSet kwargs.best_model_dict "start_epoch" (MVal.int (e + 1))
       | none => kwargs.best_model_dict) := by
    unfold statesStep
    have hex3 : FS.pathExists fs2 (pathJoin D p ++ ".states") = true := by
      unfold FS.pathExists
      rw [hC]
      rfl
    rw [hex3]
    rw [if_pos rfl]
    unfold pickleLoadStates
    rw [hC]
  rw [hss]
  dsimp only
  rw [set_state_dict_self hm]
  refine ⟨_, rfl, rfl, ?_, ?_⟩
  · intro o2 ho2
    rw [ho2]
  · intro h0
    rw [h0]

/-- Witness for C3: a concrete save/resume round trip. -/
theorem C3_save_resume_roundtrip_witness :
    ∃ r, init_model
        (save_model [] [("a", ⟨[2], DType.float32, [7]⟩)] [("m", ⟨[1], DType.float32, [3]⟩)]
          "out" ⟨none, none, "det", "DB", none, false⟩ false "ppocr" ⟨[], some 3⟩)
        ⟨some (pathJoin "out" "ppocr"), none, "det", "DB", none, false⟩
        [("a", ⟨[2], DType.float32, [7]⟩)] (some []) = Except.ok r ∧
      r.model = [("a", ⟨[2], DType.float32, [7]⟩)] ∧
      (∀ o2, (some ([] : OptState)) = some o2 →
        r.optim = some [("m", ⟨[1], DType.float32, [3]⟩)]) ∧
      ((some ([] : OptState)) = none → r.optim = none) :=
  C3_save_resume_roundtrip [] [("a", ⟨[2], DType.float32, [7]⟩)]
    [("m", ⟨[1], DType.float32, [3]⟩)] "out" "ppocr"
    ⟨none, none, "det", "DB", none, false⟩
    ⟨some (pathJoin "out" "ppocr"), none, "det", "DB", none, false⟩ false
    ⟨[], some 3⟩ (some []) (by decide) (by decide) (by decide) rfl

/-- C4, counterexample: on the checkpoints-delegation path,
`load_dygraph_params` can return a non-empty metadata record (here it
contains `start_epoch`), contradicting the claim that it returns an empty
record on all paths. -/
theorem C4_counterexample :
    ∃ r, load_dygraph_params
        [("c.pdparams", FileContent.pdparams [("a", ⟨[2], DType.float32, [1]⟩)]),
         ("c.pdopt", FileContent.pdopt []),
         ("c.states", FileContent.states ⟨[], some 4⟩)]
        ⟨some "c", none, "det", "DB", none, false⟩
        [("a", ⟨[2], DType.float32, [1]⟩)] (some []) = Except.ok r ∧
      ¬ r.best_model_dict = [] :=
  ⟨⟨[("start_epoch", MVal.int 5)], [("a", ⟨[2], DType.float32, [1]⟩)], some [],
    ["info: resume from c"]⟩, rfl, by decide⟩

/-- C4 (amended): `load_dygraph_params` returns an empty metadata record on
the positional-pairing pretrained path and when no source is configured or
resolvable; on the checkpoints-delegation path it returns exactly
`init_model`'s result, whose record may be non-empty. -/
theorem C4_empty_record :
    (∀ (fs : FS) (config : Config) (model : PDict) (optimizer : Option OptState),
      (truthyStr config.checkpoints &&
        FS.pathExists fs (config.checkpoints.getD "" ++ ".pdparams")) = false →
      ∀ r, load_dygraph_params fs config model optimizer = Except.ok r →
        r.best_model_dict = []) ∧
    (∀ (fs : FS) (config : Config) (model : PDict) (optimizer : Option OptState),
      (truthyStr config.checkpoints &&
        FS.pathExists fs (config.checkpoints.getD "" ++ ".pdparams")) = true →
      load_dygraph_params fs config model optimizer =
        init_model fs config model optimizer) := by
  constructor
  · intro fs config model optimizer hcond r hr
    unfold load_dygraph_params at hr
    dsimp only at hr
    rw [hcond] at hr
    rw [if_neg (by simp)] at hr
    cases hc : config.pretrained_model with
    | none =>
      rw [hc] at hr
      dsimp only at hr
      cases hr
      rfl
    | some pmf =>
      rw [hc] at hr
      cases pmf with
      | list l => cases hr
      | str pm =>
        dsimp only at hr
        by_cases hex : (!(FS.pathExists fs pm) && !(FS.pathExists fs (pm ++ ".pdparams"))) = true
        · rw [if_pos hex] at hr
          cases hr
          rfl
        · rw [if_neg hex] at hr
          cases hload : paddleLoadParams fs
              (if strEndsWith pm ".pdparams" then pm else pm ++ ".pdparams") with
          | error e =>
            rw [hload] at hr
            cases hr
          | ok params =>
            rw [hload] at hr
            dsimp only at hr
            cases hr
            rfl
  · intro fs config model optimizer hcond
    unfold load_dygraph_params
    dsimp only
    rw [hcond]
    rw [if_pos rfl]

/-- Witness for C4 (amended): the pretrained path returns an empty record,
and a configured checkpoints path delegates exactly to `init_model`. -/
theorem C4_empty_record_witness :
    LoadOk.best_model_dict
      ⟨[], [("x", ⟨[2], DType.float32, [5]⟩), ("y", ⟨[3], DType.float32, [2]⟩)], none,
       ["info: the shape of model params y not matched with loaded params q !",
        "info: loaded pretrained_model successful from pm.pdparams"]⟩ = [] ∧
    load_dygraph_params
        [("c.pdparams", FileContent.pdparams [("a", ⟨[2], DType.float32, [1]⟩)]),
         ("c.pdopt", FileContent.pdopt []),
         ("c.states", FileContent.states ⟨[], some 4⟩)]
        ⟨some "c", none, "det", "DB", none, false⟩
        [("a", ⟨[2], DType.float32, [1]⟩)] (some []) =
      init_model
        [("c.pdparams", FileContent.pdparams [("a", ⟨[2], DType.float32, [1]⟩)]),
         ("c.pdopt", FileContent.pdopt []),
         ("c.states", FileContent.states ⟨[], some 4⟩)]
        ⟨some "c", none, "det", "DB", none, false⟩
        [("a", ⟨[2], DType.float32, [1]⟩)] (some []) :=
  ⟨C4_empty_record.1
      [("pm.pdparams", FileContent.pdparams
        [("p", ⟨[2], DType.float32, [5]⟩), ("q", ⟨[9], DType.float32, [6]⟩),
         ("r", ⟨[4], DType.float32, [8]⟩)])]
      ⟨none, some (PMField.str "pm"), "det", "DB", none, false⟩
      [("x", ⟨[2], DType.float32, [1]⟩), ("y", ⟨[3], DType.float32, [2]⟩)] none
      (by decide)
      ⟨[], [("x", ⟨[2], DType.float32, [5]⟩), ("y", ⟨[3], DType.float32, [2]⟩)], none,
       ["info: the shape of model params y not matched with loaded params q !",
        "info: loaded pretrained_model successful from pm.pdparams"]⟩ rfl,
   C4_empty_record.2
      [("c.pdparams", FileContent.pdparams [("a", ⟨[2], DType.float32, [1]⟩)]),
       ("c.pdopt", FileContent.pdopt []),
       ("c.states", FileContent.states ⟨[], some 4⟩)]
      ⟨some "c", none, "det", "DB", none, false⟩
      [("a", ⟨[2], DType.float32, [1]⟩)] (some []) (by decide)⟩

/-- Witness for C9: a kie resume restores only the optimizer from the
backbone `.pdopt` and leaves the model parameters untouched. -/
theorem C9_kie_frame_witness :
    (⟨[("acc", MVal.int 7), ("start_epoch", MVal.int 3)],
        [("a", ⟨[2], DType.float32, [1]⟩)], some [("o", ⟨[2], DType.float32, [1]⟩)],
        ["info: resume from bk"]⟩ : LoadOk).model = [("a", ⟨[2], DType.float32, [1]⟩)] ∧
    ((⟨[("acc", MVal.int 7), ("start_epoch", MVal.int 3)],
        [("a", ⟨[2], DType.float32, [1]⟩)], some [("o", ⟨[2], DType.float32, [1]⟩)],
        ["info: resume from bk"]⟩ : LoadOk).optim = some [] ∨
      ∃ od, (⟨[("acc", MVal.int 7), ("start_epoch", MVal.int 3)],
          [("a", ⟨[2], DType.float32, [1]⟩)], some [("o", ⟨[2], DType.float32, [1]⟩)],
          ["info: resume from bk"]⟩ : LoadOk).optim = some od ∧
        (some ([] : OptState)).isSome = true ∧
        FS.find [("bk/metric.states", FileContent.states ⟨[("acc", MVal.int 7)], some 2⟩),
                 ("bk.pdopt", FileContent.pdopt [("o", ⟨[2], DType.float32, [1]⟩)])]
          (stripTrailingSep ((⟨none, none, "kie", "LayoutXLM", some "bk", false⟩ :
              Config).backbone_checkpoints.getD "") ++ ".pdopt") =
          some (FileContent.pdopt od)) :=
  C9_kie_frame id
    [("bk/metric.states", FileContent.states ⟨[("acc", MVal.int 7)], some 2⟩),
     ("bk.pdopt", FileContent.pdopt [("o", ⟨[2], DType.float32, [1]⟩)])]
    ⟨none, none, "kie", "LayoutXLM", some "bk", false⟩
    [("a", ⟨[2], DType.float32, [1]⟩)] (some []) "kie" (by decide)
    ⟨[("acc", MVal.int 7), ("start_epoch", MVal.int 3)],
     [("a", ⟨[2], DType.float32, [1]⟩)], some [("o", ⟨[2], DType.float32, [1]⟩)],
     ["info: resume from bk"]⟩ rfl

/-- Witness for C2 at concrete configurations (empty filesystem, so every
required file is absent). -/
theorem C2_missing_required_file_fatal_witness :
    (∃ e, load_model id [] ⟨some "ck", none, "det", "DB", none, false⟩
        [("a", ⟨[2], DType.float32, [0]⟩)] none "det" = Except.error e ∧
      e.model = [("a", ⟨[2], DType.float32, [0]⟩)] ∧ e.optim = none) ∧
    (∃ e, init_model [] ⟨some "ck", none, "det", "DB", none, false⟩
        [("a", ⟨[2], DType.float32, [0]⟩)] none = Except.error e ∧
      e.model = [("a", ⟨[2], DType.float32, [0]⟩)] ∧ e.optim = none) ∧
    (∃ e, init_model [] ⟨none, some (PMField.str "pre"), "det", "DB", none, false⟩
        [("a", ⟨[2], DType.float32, [0]⟩)] none = Except.error e ∧
      e.model = [("a", ⟨[2], DType.float32, [0]⟩)] ∧ e.optim = none) :=
  ⟨C2_missing_required_file_fatal.1 id [] ⟨some "ck", none, "det", "DB", none, false⟩
      [("a", ⟨[2], DType.float32, [0]⟩)] none "det" (by decide) (by decide) (by decide),
   C2_missing_required_file_fatal.2.1 [] ⟨some "ck", none, "det", "DB", none, false⟩
      [("a", ⟨[2], DType.float32, [0]⟩)] none (by decide) (Or.inl (by decide)),
   C2_missing_required_file_fatal.2.2 [] ⟨none, some (PMField.str "pre"), "det", "DB", none, false⟩
      [("a", ⟨[2], DType.float32, [0]⟩)] none (by decide) (by decide)
      (by intro p hp; exact ⟨rfl, rfl⟩)⟩

/-- C10: in `load_dygraph_params`'s pretrained branch, loaded entries are
paired with target entries strictly by position (never by name): the
result is the positional merge, surplus entries of the longer mapping are
silently ignored (the log contains exactly one line per shape-mismatched
zipped pair plus the final success line, so surplus entries produce no
warning, and the corresponding target parameters keep their prior
values). -/
theorem C10_positional_pairing :
    ∀ (fs : FS) (config : Config) (model : PDict) (optimizer : Option OptState)
      (pm : String) (params : PDict),
      keysNodup model → keysNodup params →
      (truthyStr config.checkpoints &&
        FS.pathExists fs (config.checkpoints.getD "" ++ ".pdparams")) = false →
      config.pretrained_model = some (PMField.str pm) →
      (!(FS.pathExists fs pm) && !(FS.pathExists fs (pm ++ ".pdparams"))) = false →
      paddleLoadParams fs (if strEndsWith pm ".pdparams" then pm else pm ++ ".pdparams") =
        Except.ok params →
      ∀ r, load_dygraph_params fs config model optimizer = Except.ok r →
        r.model = positional_merge model params ∧
        r.logs.length =
          ((model.zip params).filter
            (fun pq => !(pq.1.2.shape == pq.2.2.shape))).length + 1 ∧
        r.best_model_dict = [] := by
  intro fs config model optimizer pm params hm hpn hcond hpm hres hload r hr
  unfold load_dygraph_params at hr
  dsimp only at hr
  rw [hcond] at hr
  rw [if_neg (by simp)] at hr
  rw [hpm] at hr
  dsimp only at hr
  rw [if_neg (by simp [hres])] at hr
  rw [hload] at hr
  dsimp only at hr
  have hmem : ∀ e ∈ model.zip params,
      pfind model e.1.1 = some e.1.2 ∧ pfind params e.2.1 = some e.2.2 := by
    intro e he
    have h2 := List.of_mem_zip he
    exact ⟨pfind_of_mem hm h2.1, pfind_of_mem hpn h2.2⟩
  rw [zip_keys_eq model params] at hr
  rw [ldp_loop_spec model params (model.zip params) hmem] at hr
  dsimp only at hr
  cases hr
  refine ⟨set_positional hm, ?_, rfl⟩
  simp [List.length_append, List.length_map]

/-- Witness for C10: a three-entry mapping loaded into a two-entry model is
paired positionally (names differ), the shape-mismatched second pair is
skipped, the surplus third entry is ignored and produces no log line. -/
theorem C10_positional_pairing_witness :
    ([("x", ⟨[2], DType.float32, [5]⟩), ("y", ⟨[3], DType.float32, [2]⟩)] : PDict) =
      positional_merge
        [("x", ⟨[2], DType.float32, [1]⟩), ("y", ⟨[3], DType.float32, [2]⟩)]
        [("p", ⟨[2], DType.float32, [5]⟩), ("q", ⟨[9], DType.float32, [6]⟩),
         ("r", ⟨[4], DType.float32, [8]⟩)] ∧
    (2 : Nat) =
      ((([("x", ⟨[2], DType.float32, [1]⟩), ("y", ⟨[3], DType.float32, [2]⟩)] : PDict).zip
        ([("p", ⟨[2], DType.float32, [5]⟩), ("q", ⟨[9], DType.float32, [6]⟩),
          ("r", ⟨[4], DType.float32, [8]⟩)] : PDict)).filter
        (fun pq => !(pq.1.2.shape == pq.2.2.shape))).length + 1 ∧
    ([] : MDict) = [] :=
  C10_positional_pairing
    [("pm.pdparams", FileContent.pdparams
      [("p", ⟨[2], DType.float32, [5]⟩), ("q", ⟨[9], DType.float32, [6]⟩),
       ("r", ⟨[4], DType.float32, [8]⟩)])]
    ⟨none, some (PMField.str "pm"), "det", "DB", none, false⟩
    [("x", ⟨[2], DType.float32, [1]⟩), ("y", ⟨[3], DType.float32, [2]⟩)] none
    "pm"
    [("p", ⟨[2], DType.float32, [5]⟩), ("q", ⟨[9], DType.float32, [6]⟩),
     ("r", ⟨[4], DType.float32, [8]⟩)]
    (by decide) (by decide) (by decide) rfl (by decide) rfl
    ⟨[], [("x", ⟨[2], DType.float32, [5]⟩), ("y", ⟨[3], DType.float32, [2]⟩)], none,
     ["info: the shape of model params y not matched with loaded params q !",
      "info: loaded pretrained_model successful from pm.pdparams"]⟩ rfl

end SaveLoad
